import Mathlib

/-!
# Narrow-phase collision detection (`src/engine/Collision.cpp`)

Shallow embedding of `gp::engine::Collision` and of the helpers it calls.

Conventions of the embedding.

* A failing `assert` and a dereferenced null pointer (the result of a failed
  `dynamic_cast`) end the run: routines return `Except Fault (Bool × Collision F)`,
  the boolean being the C++ return value and the record the `Collision` object
  after the call.
* `EPSILON` (a constant of `config.h`) and `std::numeric_limits<float_t>::max()`
  are parameters `EPSILON` and `FLT_MAX`.
* Exact arithmetic.  In `detectSphereSphere`, `detectSphereBox`, `detectBoxBox` and
  `detect` the type `float_t` (a typedef of `config.h`) is a type parameter `F`
  carrying a linear ordered field: arithmetic is exact, there is no rounding, no
  overflow and no NaN.  `std::sqrt` is a parameter `sqrt : F → F`; theorems that
  need it to be an exact square root say so through `IsSqrt`.  A statement about
  these definitions is a statement about the control flow of the routines under
  exact arithmetic; it carries over to the compiled code only where rounding does
  not change a comparison.
* Arithmetic as a parameter.  `detectSphereSphereWith` and `detectSphereBoxWith`
  are the two sphere routines with every operation on `float_t` taken from a
  record `FloatOps`, about which nothing is assumed; the operations of
  `Eigen::Vector3f` and `Eigen::Affine3f` are spelled out over it.  Their theorems
  hold for the rounded operations of the machine as well.  `detectSphereSphere` and
  `detectSphereBox` are the instances at `exactOps` (`detectSphereSphere_eq_with`,
  `detectSphereBox_eq_with`).
* Binary32.  `binary32` is the instance of `FloatOps` for IEEE 754 binary32 with
  rounding to nearest, ties to even, every operation rounded once (no fused
  multiply-add).  A statement at `binary32` is a statement about a run of the
  compiled routine on binary32 data.
-/

namespace gp

/-! ## Vectors and transforms (Eigen) -/

/-- Three-component vector, `Eigen::Vector3f`. -/
@[ext]
structure Vector3f (F : Type) where
  x : F
  y : F
  z : F
deriving DecidableEq, Repr

namespace Vector3f

variable {F : Type} [LinearOrderedField F]

/-- Component-wise sum, `a + b`. -/
def add (a b : Vector3f F) : Vector3f F := ⟨a.x + b.x, a.y + b.y, a.z + b.z⟩

/-- Component-wise difference, `a - b`. -/
def sub (a b : Vector3f F) : Vector3f F := ⟨a.x - b.x, a.y - b.y, a.z - b.z⟩

/-- Component-wise opposite, `-a`. -/
def neg (a : Vector3f F) : Vector3f F := ⟨-a.x, -a.y, -a.z⟩

/-- Product with a scalar, `a * s` and `s * a`. -/
def scale (a : Vector3f F) (s : F) : Vector3f F := ⟨a.x * s, a.y * s, a.z * s⟩

/-- Quotient by a scalar, `a / s`. -/
def divScalar (a : Vector3f F) (s : F) : Vector3f F := ⟨a.x / s, a.y / s, a.z / s⟩

/-- The zero vector. -/
def zero : Vector3f F := ⟨0, 0, 0⟩

/-- Scalar product, `a.dot(b)`. -/
def dot (a b : Vector3f F) : F := a.x * b.x + a.y * b.y + a.z * b.z

/-- Vector product, `a.cross(b)`. -/
def cross (a b : Vector3f F) : Vector3f F :=
  ⟨a.y * b.z - a.z * b.y, a.z * b.x - a.x * b.z, a.x * b.y - a.y * b.x⟩

/-- Squared Euclidean length, `a.squaredNorm()`. -/
def squaredNorm (a : Vector3f F) : F := a.dot a

/-- Euclidean length, `a.norm()`: the square root of the squared length. -/
def norm (sqrt : F → F) (a : Vector3f F) : F := sqrt a.squaredNorm

/-- Unit vector of the same direction, `a.normalized()`.  As Eigen documents it,
a vector of squared length zero is returned unchanged. -/
def normalized (sqrt : F → F) (a : Vector3f F) : Vector3f F :=
  let z := a.squaredNorm
  if 0 < z then a.divScalar (sqrt z) else a

end Vector3f

/-- A 3x3 matrix given by its rows, the `linear()` part of an `Eigen::Affine3f`. -/
@[ext]
structure Matrix3f (F : Type) where
  row0 : Vector3f F
  row1 : Vector3f F
  row2 : Vector3f F
deriving DecidableEq, Repr

/-- Matrix times vector. -/
def Matrix3f.mulVec {F : Type} [LinearOrderedField F] (m : Matrix3f F) (v : Vector3f F) :
    Vector3f F :=
  ⟨m.row0.dot v, m.row1.dot v, m.row2.dot v⟩

/-- The identity matrix. -/
def Matrix3f.identity {F : Type} [LinearOrderedField F] : Matrix3f F :=
  ⟨⟨1, 0, 0⟩, ⟨0, 1, 0⟩, ⟨0, 0, 1⟩⟩

/-- An affine transform, `Eigen::Affine3f`: a linear part and a translation. -/
@[ext]
structure Affine3f (F : Type) where
  linear : Matrix3f F
  translation : Vector3f F
deriving DecidableEq, Repr

/-- Transform times vector, `M * v`: Eigen treats the vector as a point, so the
translation is added. -/
def Affine3f.apply {F : Type} [LinearOrderedField F] (m : Affine3f F) (v : Vector3f F) :
    Vector3f F :=
  (m.linear.mulVec v).add m.translation

/-- The identity transform. -/
def Affine3f.identity {F : Type} [LinearOrderedField F] : Affine3f F :=
  ⟨Matrix3f.identity, Vector3f.zero⟩

/-- First column of a matrix. -/
def Matrix3f.col0 {F : Type} (m : Matrix3f F) : Vector3f F := ⟨m.row0.x, m.row1.x, m.row2.x⟩

/-- Second column of a matrix. -/
def Matrix3f.col1 {F : Type} (m : Matrix3f F) : Vector3f F := ⟨m.row0.y, m.row1.y, m.row2.y⟩

/-- Third column of a matrix. -/
def Matrix3f.col2 {F : Type} (m : Matrix3f F) : Vector3f F := ⟨m.row0.z, m.row1.z, m.row2.z⟩

/-- The columns are pairwise orthogonal: the matrix is a rotation, possibly
composed with a scale along each local axis. -/
def Matrix3f.OrthogonalColumns {F : Type} [LinearOrderedField F] (m : Matrix3f F) : Prop :=
  m.col0.dot m.col1 = 0 ∧ m.col0.dot m.col2 = 0 ∧ m.col1.dot m.col2 = 0

/-- Exactness of the square root: on non-negative arguments `sqrt` returns the
non-negative root. -/
def IsSqrt {F : Type} [LinearOrderedField F] (sqrt : F → F) : Prop :=
  ∀ x : F, 0 ≤ x → 0 ≤ sqrt x ∧ sqrt x * sqrt x = x

/-! ## The arithmetic of `float_t` as a parameter -/

/-- The operations on `float_t` that the routines use.  Nothing is assumed about
them: they may round.  `lt a b` and `le a b` are the comparisons `a < b` and
`a <= b`, `zero` and `one` the literals `0` and `1`. -/
structure FloatOps (F : Type) where
  zero : F
  one : F
  add : F → F → F
  sub : F → F → F
  mul : F → F → F
  div : F → F → F
  neg : F → F
  abs : F → F
  sqrt : F → F
  lt : F → F → Bool
  le : F → F → Bool

namespace FloatOps

/-- Component-wise sum, `a + b`, with the addition of `ops`. -/
def vadd {F : Type} (ops : FloatOps F) (a b : Vector3f F) : Vector3f F :=
  ⟨ops.add a.x b.x, ops.add a.y b.y, ops.add a.z b.z⟩

/-- Component-wise difference, `a - b`, with the subtraction of `ops`. -/
def vsub {F : Type} (ops : FloatOps F) (a b : Vector3f F) : Vector3f F :=
  ⟨ops.sub a.x b.x, ops.sub a.y b.y, ops.sub a.z b.z⟩

/-- Product of a vector and a scalar, `a * s`. -/
def vscale {F : Type} (ops : FloatOps F) (a : Vector3f F) (s : F) : Vector3f F :=
  ⟨ops.mul a.x s, ops.mul a.y s, ops.mul a.z s⟩

/-- Product of a scalar and a vector, `s * a`. -/
def smul {F : Type} (ops : FloatOps F) (s : F) (a : Vector3f F) : Vector3f F :=
  ⟨ops.mul s a.x, ops.mul s a.y, ops.mul s a.z⟩

/-- Quotient of a vector by a scalar, `a / s`. -/
def vdiv {F : Type} (ops : FloatOps F) (a : Vector3f F) (s : F) : Vector3f F :=
  ⟨ops.div a.x s, ops.div a.y s, ops.div a.z s⟩

/-- Scalar product, `a.dot(b)`.  The three products are summed as Eigen's unrolled
reduction of a vector of size three does it, `p0 + (p1 + p2)`; the binary32 runs
evaluated in this file give the same values with the order `(p0 + p1) + p2`. -/
def dot {F : Type} (ops : FloatOps F) (a b : Vector3f F) : F :=
  ops.add (ops.mul a.x b.x) (ops.add (ops.mul a.y b.y) (ops.mul a.z b.z))

/-- Squared Euclidean length, `a.squaredNorm()`. -/
def squaredNorm {F : Type} (ops : FloatOps F) (a : Vector3f F) : F := ops.dot a a

/-- Euclidean length, `a.norm()`: the square root of the squared length. -/
def norm {F : Type} (ops : FloatOps F) (a : Vector3f F) : F := ops.sqrt (ops.squaredNorm a)

/-- Unit vector of the same direction, `a.normalized()`: the vector divided by the
square root of its squared length when that is positive, the vector itself
otherwise. -/
def normalized {F : Type} (ops : FloatOps F) (a : Vector3f F) : Vector3f F :=
  if ops.lt ops.zero (ops.squaredNorm a) then ops.vdiv a (ops.sqrt (ops.squaredNorm a)) else a

/-- Matrix times vector: one scalar product for each row. -/
def mulVec {F : Type} (ops : FloatOps F) (m : Matrix3f F) (v : Vector3f F) : Vector3f F :=
  ⟨ops.dot m.row0 v, ops.dot m.row1 v, ops.dot m.row2 v⟩

/-- Transform times vector, `M * v`: the linear part applied to `v`, plus the
translation. -/
def apply {F : Type} (ops : FloatOps F) (m : Affine3f F) (v : Vector3f F) : Vector3f F :=
  ops.vadd (ops.mulVec m.linear v) m.translation

end FloatOps

/-- The exact operations of an ordered field with the square root `sqrt`. -/
def exactOps {F : Type} [LinearOrderedField F] (sqrt : F → F) : FloatOps F where
  zero := 0
  one := 1
  add := fun a b => a + b
  sub := fun a b => a - b
  mul := fun a b => a * b
  div := fun a b => a / b
  neg := fun a => -a
  abs := fun a => abs a
  sqrt := sqrt
  lt := fun a b => decide (a < b)
  le := fun a b => decide (a ≤ b)

/-! ## IEEE 754 binary32

A finite binary32 number is an integer multiple of `2^-149` whose magnitude, when it
is `2^-126` or more, has at most 24 significant binary digits.  It is represented
here by that integer: the value of `v : Int` is `v * 2^-149`, so `1.0f` is
`2^149`.  Every operation computes the exact result and rounds it once, to
nearest, ties to even, as the default rounding mode does; results below `2^-126`
are subnormal.  Overflow, infinities and NaN are not modelled: the model agrees
with the machine on runs whose values stay below `2^128` and that do not divide by
zero.  The theorems `roundNat_nearest`, `roundNat_digits` and `roundSqrt_nearest`
state the rounding, `known_values` checks it on familiar constants. -/

namespace Binary32

/-- Number of binary digits of `n` among its lowest `fuel` ones. -/
def bitsAux : Nat → Nat → Nat
  | 0, _ => 0
  | fuel + 1, n => if n = 0 then 0 else bitsAux fuel (n / 2) + 1

/-- Number of binary digits of `n`: the least `k` with `n < 2^k`. -/
def bits (n : Nat) : Nat := bitsAux n n

/-- The non-negative rational `a / b`, in units of `2^-149`, rounded to nearest,
ties to even: the result is a multiple of `2^e`, where `e` leaves 24 binary
digits to the quotient (`e = 0` in the subnormal range and in the first normal
binade). -/
def roundNat (a b : Nat) : Nat :=
  let e := bits (a / b) - 24
  let u := b * 2 ^ e
  let k := a / u
  let r := a % u
  if 2 * r < u then k * 2 ^ e
  else if u < 2 * r then (k + 1) * 2 ^ e
  else if k % 2 = 0 then k * 2 ^ e
  else (k + 1) * 2 ^ e

/-- The rational `a / b`, in units of `2^-149`, rounded to nearest, ties to even. -/
def round (a : Int) (b : Nat) : Int :=
  if a < 0 then -((roundNat a.natAbs b : Nat) : Int) else ((roundNat a.natAbs b : Nat) : Int)

/-- Digit-by-digit integer square root: `r` is raised by `2^b` for `b` from
`fuel - 1` down to `0` whenever its square stays at most `n`. -/
def sqrtAux : Nat → Nat → Nat → Nat
  | 0, r, _ => r
  | b + 1, r, n => sqrtAux b (if (r + 2 ^ b) * (r + 2 ^ b) ≤ n then r + 2 ^ b else r) n

/-- The integer square root of `n`: the largest `s` with `s * s ≤ n`. -/
def isqrt (n : Nat) : Nat := sqrtAux (bits n / 2 + 1) 0 n

/-- The square root of `n`, in units of `2^-149`, rounded to nearest, ties to even:
`g` is the multiple of `2^e` just below the root and `m / 2` the midpoint between `g`
and the next multiple. -/
def roundSqrt (n : Nat) : Nat :=
  let s := isqrt n
  let e := bits s - 24
  let g := s / 2 ^ e * 2 ^ e
  let m := 2 * g + 2 ^ e
  if 4 * n < m * m then g
  else if m * m < 4 * n then g + 2 ^ e
  else if s / 2 ^ e % 2 = 0 then g
  else g + 2 ^ e

/-- Rounded sum. -/
def add (a b : Int) : Int := round (a + b) 1

/-- Rounded difference. -/
def sub (a b : Int) : Int := round (a - b) 1

/-- Rounded product: the product of two multiples of `2^-149` is a multiple of
`2^-298`. -/
def mul (a b : Int) : Int := round (a * b) (2 ^ 149)

/-- Rounded quotient (of a non-zero divisor). -/
def div (a b : Int) : Int :=
  if b < 0 then round (-a * 2 ^ 149) b.natAbs else round (a * 2 ^ 149) b.natAbs

/-- Rounded square root (of a non-negative number): the root of `a * 2^-149` is
the root of `a * 2^149` in units of `2^-149`. -/
def sqrt (a : Int) : Int := ((roundSqrt (a.toNat * 2 ^ 149) : Nat) : Int)

/-- The number `m * 2^(e - 149)`. -/
def ofScaled (m : Int) (e : Nat) : Int := m * 2 ^ e

/-- The number is a binary32 number: rounding leaves it unchanged. -/
def Representable (v : Int) : Prop := round v 1 = v

/-- Every component of the vector is a binary32 number. -/
def RepresentableVector (v : Vector3f Int) : Prop :=
  Representable v.x ∧ Representable v.y ∧ Representable v.z

/-- The scalar product without any rounding, in units of `2^-298`. -/
def exactDot (a b : Vector3f Int) : Int := a.x * b.x + a.y * b.y + a.z * b.z

/-- The squared distance of two points without any rounding, in units of `2^-298`. -/
def exactSquaredDistance (a b : Vector3f Int) : Int :=
  (b.x - a.x) ^ 2 + (b.y - a.y) ^ 2 + (b.z - a.z) ^ 2

end Binary32

/-- The operations of IEEE 754 binary32 arithmetic, round to nearest, ties to even. -/
def binary32 : FloatOps Int where
  zero := 0
  one := 2 ^ 149
  add := Binary32.add
  sub := Binary32.sub
  mul := Binary32.mul
  div := Binary32.div
  neg := fun a => -a
  abs := fun a => if a < 0 then -a else a
  sqrt := Binary32.sqrt
  lt := fun a b => decide (a < b)
  le := fun a b => decide (a ≤ b)

namespace engine

/-! ## Shape model -/

/-- Modelled from the spec: the Sphere variant of Object (`Sphere.h` is not part of
the sources): a world-space position and a radius. -/
structure Sphere (F : Type) where
  position : Vector3f F
  radius : F
deriving DecidableEq, Repr

/-- Modelled from the spec: the Box variant of Object (`Box.h` is not part of the
sources): a world-space position, the model transform and its inverse as returned
by `modelMatrix()` and `invModelMatrix()`, and the half-extents. -/
structure Box (F : Type) where
  position : Vector3f F
  modelMatrix : Affine3f F
  invModelMatrix : Affine3f F
  halfSize : Vector3f F
deriving DecidableEq, Repr

/-- The two transforms of a box are inverse to each other. -/
def Box.Invertible {F : Type} [LinearOrderedField F] (b : Box F) : Prop :=
  ∀ v : Vector3f F,
    b.modelMatrix.apply (b.invModelMatrix.apply v) = v ∧
    b.invModelMatrix.apply (b.modelMatrix.apply v) = v

/-- Modelled from the spec: the polymorphic Object (`Object.h` is not part of the
sources).  The run-time kind is what `dynamic_cast` observes; `other` stands for
any Object that is neither a Sphere nor a Box. -/
inductive Object (F : Type) where
  | sphere (s : Sphere F)
  | box (b : Box F)
  | other (position : Vector3f F)
deriving DecidableEq, Repr

/-- The test `dynamic_cast<Sphere*>(o)` used as a condition. -/
def Object.isSphere {F : Type} : Object F → Bool
  | .sphere _ => true
  | _ => false

/-- The test `dynamic_cast<Box*>(o)` used as a condition. -/
def Object.isBox {F : Type} : Object F → Bool
  | .box _ => true
  | _ => false

/-! ## Helpers of `math/` -/

/-- Modelled from the spec: the AABox helper (`math/AABox.h` is not part of the
sources), a wrapper of a box's half-extents. -/
structure AABox (F : Type) where
  halfSize : Vector3f F

/-- Clamp `v` to the interval `[lo, hi]`. -/
def clamp {F : Type} [LinearOrderedField F] (v lo hi : F) : F := max lo (min v hi)

/-- The face coordinate on the side of `v`: `h` when `v` is non-negative, `-h`
otherwise. -/
def faceCoord {F : Type} [LinearOrderedField F] (v h : F) : F := if 0 ≤ v then h else -h

/-- Modelled from the spec: `AABox::closestPointOnSurface` (`math/AABox.h` is not
part of the sources).  Each local coordinate is clamped to `[-halfSize, +halfSize]`;
a point strictly inside the box is moved to the nearest face along the axis of
least penetration (the first such axis in the order x, y, z). -/
def AABox.closestPointOnSurface {F : Type} [LinearOrderedField F] (a : AABox F)
    (p : Vector3f F) : Vector3f F :=
  let h := a.halfSize
  if abs p.x < h.x ∧ abs p.y < h.y ∧ abs p.z < h.z then
    let dx := h.x - abs p.x
    let dy := h.y - abs p.y
    let dz := h.z - abs p.z
    if dx ≤ dy ∧ dx ≤ dz then ⟨faceCoord p.x h.x, p.y, p.z⟩
    else if dy ≤ dz then ⟨p.x, faceCoord p.y h.y, p.z⟩
    else ⟨p.x, p.y, faceCoord p.z h.z⟩
  else
    ⟨clamp p.x (-h.x) h.x, clamp p.y (-h.y) h.y, clamp p.z (-h.z) h.z⟩

/-- Clamp `v` to the interval `[lo, hi]` with the comparison of `ops`. -/
def clampWith {F : Type} (ops : FloatOps F) (v lo hi : F) : F :=
  if ops.le lo (if ops.le v hi then v else hi) then (if ops.le v hi then v else hi) else lo

/-- The face coordinate on the side of `v` with the comparison of `ops`. -/
def faceCoordWith {F : Type} (ops : FloatOps F) (v h : F) : F :=
  if ops.le ops.zero v then h else ops.neg h

/-- Modelled from the spec: `AABox::closestPointOnSurface` with the operations of
`ops`. -/
def AABox.closestPointOnSurfaceWith {F : Type} (ops : FloatOps F) (a : AABox F)
    (p : Vector3f F) : Vector3f F :=
  let h := a.halfSize
  if (ops.lt (ops.abs p.x) h.x && ops.lt (ops.abs p.y) h.y && ops.lt (ops.abs p.z) h.z) then
    let dx := ops.sub h.x (ops.abs p.x)
    let dy := ops.sub h.y (ops.abs p.y)
    let dz := ops.sub h.z (ops.abs p.z)
    if (ops.le dx dy && ops.le dx dz) then ⟨faceCoordWith ops p.x h.x, p.y, p.z⟩
    else if ops.le dy dz then ⟨p.x, faceCoordWith ops p.y h.y, p.z⟩
    else ⟨p.x, p.y, faceCoordWith ops p.z h.z⟩
  else
    ⟨clampWith ops p.x (ops.neg h.x) h.x, clampWith ops p.y (ops.neg h.y) h.y,
      clampWith ops p.z (ops.neg h.z) h.z⟩

/-- Modelled from the spec: the BoxProjection helper (`math/BoxProjection.h` is
not part of the sources): the two boxes' world-space axis triples, their
half-extents and the offset between their centres. -/
structure BoxProjection (F : Type) where
  axis1 : Fin 3 → Vector3f F
  halfSize1 : Vector3f F
  axis2 : Fin 3 → Vector3f F
  halfSize2 : Vector3f F
  toCenter : Vector3f F

/-- Half-extent of a box projected onto `axis`. -/
def projectedHalfSize {F : Type} [LinearOrderedField F] (axes : Fin 3 → Vector3f F)
    (halfSize axis : Vector3f F) : F :=
  halfSize.x * abs (axis.dot (axes 0)) + halfSize.y * abs (axis.dot (axes 1))
    + halfSize.z * abs (axis.dot (axes 2))

/-- Modelled from the spec: `BoxProjection::overlapOnAxis`: the sum of each box's
half-extent projected onto the axis, minus the projected centre-to-centre
distance. -/
def BoxProjection.overlapOnAxis {F : Type} [LinearOrderedField F] (bp : BoxProjection F)
    (axis : Vector3f F) : F :=
  projectedHalfSize bp.axis1 bp.halfSize1 axis + projectedHalfSize bp.axis2 bp.halfSize2 axis
    - abs (bp.toCenter.dot axis)

/-! ## The Collision record -/

/-- The enumeration `Collision::CollisionType`. -/
inductive CollisionType where
  | SPHERE_SPHERE
  | SPHERE_BOX
  | BOX_BOX
  | CONSTRAINT
deriving DecidableEq, Repr

/-- Modelled from the spec: a constraint object (its class is not part of the
sources).  `collision` receives the four output fields by reference and returns
the boolean together with their new contents. -/
structure Constraint (F : Type) where
  collision : Vector3f F → Vector3f F → Vector3f F → F →
    Bool × Vector3f F × Vector3f F × Vector3f F × F

/-- The members of `gp::engine::Collision` (declared in `Collision.h`). -/
structure Collision (F : Type) where
  m_type : CollisionType
  m_object1 : Object F
  m_object2 : Object F
  m_constraint : Option (Constraint F)
  m_collisionNormal : Vector3f F
  m_collisionPoint1 : Vector3f F
  m_collisionPoint2 : Vector3f F
  m_interpenetrationDepth : F

/-- The two ways a run ends without returning. -/
inductive Fault where
  | assertionFailed
  | nullDereference
deriving DecidableEq, Repr

namespace Collision

variable {F : Type} [LinearOrderedField F]

/-! ## The classifier (lines 178-203) -/

/-- Translation of `Collision::getType`. -/
def getType (o1 o2 : Object F) : CollisionType :=
  if o1.isSphere then
    if o2.isSphere then CollisionType.SPHERE_SPHERE
    else CollisionType.SPHERE_BOX
  else
    if o2.isSphere then CollisionType.SPHERE_BOX
    else CollisionType.BOX_BOX

/-- Translation of `Collision::getFirstObject`. -/
def getFirstObject (o1 o2 : Object F) : Object F :=
  if o1.isSphere then o1 else o2

/-- Translation of `Collision::getSecondObject`. -/
def getSecondObject (o1 o2 : Object F) : Object F :=
  if o1.isSphere then o2 else o1

/-! ## Sphere against sphere (lines 43-59) -/

/-- Translation of `Collision::detectSphereSphere`, the arithmetic of `float_t`
taken exact; `detectSphereSphereWith` is the routine for any arithmetic. -/
def detectSphereSphere (sqrt : F → F) (EPSILON : F) (c : Collision F) :
    Except Fault (Bool × Collision F) :=
  match c.m_object1, c.m_object2 with
  | .sphere sphere1, .sphere sphere2 =>
    let collDistance := sphere1.radius + sphere2.radius
    let collNormal := sphere2.position.sub sphere1.position
    let collNormalLength := collNormal.norm sqrt
    if collNormalLength < collDistance then
      let c1 := { c with m_collisionNormal := collNormal.normalized sqrt }
      if abs (c1.m_collisionNormal.norm sqrt - 1) < EPSILON then
        .ok (true,
          { c1 with
            m_collisionPoint1 :=
              sphere1.position.add ((collNormal.normalized sqrt).scale sphere1.radius)
            m_collisionPoint2 :=
              sphere2.position.sub ((collNormal.normalized sqrt).scale sphere2.radius)
            m_interpenetrationDepth := collDistance - collNormalLength })
      else .error Fault.assertionFailed
    else .ok (false, c)
  | _, _ => .error Fault.nullDereference

/-! ## Sphere against box (lines 61-108) -/

/-- The sign triples `(i, j, k)` in the order of the three nested loops of lines
88-90. -/
def cornerSigns : List (F × F × F) :=
  [(-1 : F), 1].flatMap fun i => [(-1 : F), 1].flatMap fun j => [(-1 : F), 1].map fun k => (i, j, k)

/-- The value `dist` of line 94 for the corner of signs `s`. -/
def cornerDist (myBox : Box F) (c : Collision F) (s : F × F × F) : F :=
  let boxCorner : Vector3f F :=
    ⟨s.1 * myBox.halfSize.x, s.2.1 * myBox.halfSize.y, s.2.2 * myBox.halfSize.z⟩
  let boxCorner := myBox.modelMatrix.apply boxCorner
  let collisionPointToCorner := boxCorner.sub c.m_collisionPoint2
  collisionPointToCorner.dot c.m_collisionNormal

/-- The counter `pointsAbove` after the loops of lines 88-103. -/
def pointsAbove (EPSILON : F) (myBox : Box F) (c : Collision F) : Nat :=
  (cornerSigns.filter fun s => decide (-EPSILON ≤ cornerDist myBox c s)).length

/-- The counter `pointsBelow` after the loops of lines 88-103. -/
def pointsBelow (EPSILON : F) (myBox : Box F) (c : Collision F) : Nat :=
  (cornerSigns.filter fun s => decide (cornerDist myBox c s < EPSILON)).length

/-- Translation of `Collision::detectSphereBox`, the arithmetic of `float_t` taken
exact; `detectSphereBoxWith` is the routine for any arithmetic. -/
def detectSphereBox (sqrt : F → F) (EPSILON : F) (c : Collision F) :
    Except Fault (Bool × Collision F) :=
  match c.m_object2, c.m_object1 with
  | .box myBox, .sphere mySphere =>
    let aabox : AABox F := ⟨myBox.halfSize⟩
    let sphereLocation := myBox.invModelMatrix.apply mySphere.position
    let boxSurfacePoint := aabox.closestPointOnSurface sphereLocation
    let collNormalOld := boxSurfacePoint.sub sphereLocation
    let collNormal := myBox.modelMatrix.linear.mulVec collNormalOld
    let collNormalLength := collNormal.norm sqrt
    let collNormal := collNormal.normalized sqrt
    if collNormalLength < mySphere.radius then
      let c1 : Collision F :=
        { c with
          m_collisionPoint1 :=
            (myBox.modelMatrix.apply sphereLocation).add (collNormal.scale mySphere.radius)
          m_collisionPoint2 := myBox.modelMatrix.apply boxSurfacePoint
          m_collisionNormal := collNormal
          m_interpenetrationDepth := mySphere.radius - collNormalLength }
      let collisionPointToCenter := mySphere.position.sub c1.m_collisionPoint1
      let distSpherePlane := abs (c1.m_collisionNormal.dot collisionPointToCenter)
      if mySphere.radius - EPSILON ≤ distSpherePlane then
        if pointsBelow EPSILON myBox c1 = 8 ∨ pointsAbove EPSILON myBox c1 = 8 then
          .ok (true, c1)
        else .error Fault.assertionFailed
      else .error Fault.assertionFailed
    else .ok (false, c)
  | _, _ => .error Fault.nullDereference

/-! ## Box against box (lines 110-175) -/

/-- The locals of `detectBoxBox` that the axis loops update. -/
structure AxisSearch (F : Type) where
  minOverlap : F
  minOverlapAxis : Vector3f F
  isEdge : Bool
  edge1 : Vector3f F
  edge2 : Vector3f F

/-- The arrays `box1Axis` and `box2Axis` of lines 117-118: the model transform
applied to the normalized unit vectors. -/
def boxAxis (sqrt : F → F) (b : Box F) : Fin 3 → Vector3f F
  | 0 => b.modelMatrix.apply (Vector3f.normalized sqrt ⟨1, 0, 0⟩)
  | 1 => b.modelMatrix.apply (Vector3f.normalized sqrt ⟨0, 1, 0⟩)
  | 2 => b.modelMatrix.apply (Vector3f.normalized sqrt ⟨0, 0, 1⟩)

/-- One face-axis test (lines 130-137 and 139-146); `none` is the `return false`
inside the test. -/
def testFaceAxis (EPSILON : F) (bp : BoxProjection F) (currentAxis : Vector3f F)
    (s : AxisSearch F) : Option (AxisSearch F) :=
  let currentOverlap := bp.overlapOnAxis currentAxis
  if currentOverlap < s.minOverlap then
    let s1 := { s with minOverlap := currentOverlap, minOverlapAxis := currentAxis, isEdge := false }
    if s1.minOverlap < EPSILON then none else some s1
  else some s

/-- One cross-product test (lines 151-160); `none` is the `return false` inside
the test. -/
def testEdgeAxis (sqrt : F → F) (EPSILON : F) (bp : BoxProjection F) (a1 a2 : Vector3f F)
    (s : AxisSearch F) : Option (AxisSearch F) :=
  let currentAxis := (a1.cross a2).normalized sqrt
  let currentOverlap := bp.overlapOnAxis currentAxis
  if currentOverlap < s.minOverlap then
    let s1 :=
      { s with
        minOverlap := currentOverlap, minOverlapAxis := currentAxis, isEdge := true,
        edge1 := a1, edge2 := a2 }
    if s1.minOverlap < EPSILON then none else some s1
  else some s

/-- The loop of lines 128-147. -/
def faceLoop (EPSILON : F) (bp : BoxProjection F) (box1Axis box2Axis : Fin 3 → Vector3f F)
    (s : AxisSearch F) : Option (AxisSearch F) :=
  (List.finRange 3).foldlM
    (fun s i => (testFaceAxis EPSILON bp (box1Axis i) s).bind (testFaceAxis EPSILON bp (box2Axis i)))
    s

/-- The loops of lines 149-162. -/
def edgeLoop (sqrt : F → F) (EPSILON : F) (bp : BoxProjection F)
    (box1Axis box2Axis : Fin 3 → Vector3f F) (s : AxisSearch F) : Option (AxisSearch F) :=
  (List.finRange 3).foldlM
    (fun s i =>
      (List.finRange 3).foldlM
        (fun s k => testEdgeAxis sqrt EPSILON bp (box1Axis i) (box2Axis k) s) s)
    s

/-- Translation of `Collision::detectBoxBox`.  `uninit` is the indeterminate
content of the locals `minOverlapAxis`, `edge1` and `edge2`, which are declared
without an initial value. -/
def detectBoxBox (sqrt : F → F) (EPSILON FLT_MAX : F) (uninit : Vector3f F) (c : Collision F) :
    Except Fault (Bool × Collision F) :=
  match c.m_object1, c.m_object2 with
  | .box myBox1, .box myBox2 =>
    let box1Axis := boxAxis sqrt myBox1
    let box2Axis := boxAxis sqrt myBox2
    let bp : BoxProjection F :=
      ⟨box1Axis, myBox1.halfSize, box2Axis, myBox2.halfSize,
        myBox2.position.sub myBox1.position⟩
    let start : AxisSearch F := ⟨FLT_MAX, uninit, false, uninit, uninit⟩
    match faceLoop EPSILON bp box1Axis box2Axis start with
    | none => .ok (false, c)
    | some s =>
      match edgeLoop sqrt EPSILON bp box1Axis box2Axis s with
      | none => .ok (false, c)
      | some s => .ok (false, { c with m_collisionNormal := s.minOverlapAxis })
  | _, _ => .error Fault.nullDereference

/-! ## Dispatch (lines 15-41) -/

/-- The predicate `std::isnan`: a value that differs from itself. -/
def isnan (v : F) : Bool := decide (v ≠ v)

/-- The CONSTRAINT case of `detect` (lines 30-35). -/
def detectConstraint (c : Collision F) : Except Fault (Bool × Collision F) :=
  match c.m_constraint with
  | none => .error Fault.assertionFailed
  | some k =>
    let r := k.collision c.m_collisionNormal c.m_collisionPoint1 c.m_collisionPoint2
      c.m_interpenetrationDepth
    .ok (r.1,
      { c with
        m_collisionNormal := r.2.1, m_collisionPoint1 := r.2.2.1,
        m_collisionPoint2 := r.2.2.2.1, m_interpenetrationDepth := r.2.2.2.2 })

/-- The assertion of line 38 followed by `return ret`. -/
def checkDepth (r : Bool × Collision F) : Except Fault (Bool × Collision F) :=
  if !r.1 || !isnan r.2.m_interpenetrationDepth then .ok r else .error Fault.assertionFailed

/-- Translation of `Collision::detect`. -/
def detect (sqrt : F → F) (EPSILON FLT_MAX : F) (uninit : Vector3f F) (c : Collision F) :
    Except Fault (Bool × Collision F) :=
  (match c.m_type with
    | .SPHERE_SPHERE => detectSphereSphere sqrt EPSILON c
    | .SPHERE_BOX => detectSphereBox sqrt EPSILON c
    | .BOX_BOX => detectBoxBox sqrt EPSILON FLT_MAX uninit c
    | .CONSTRAINT => detectConstraint c).bind checkDepth

/-! ## The sphere routines with the arithmetic as a parameter -/

/-- Translation of `Collision::detectSphereSphere` (lines 43-59) with the
operations of `ops`. -/
def detectSphereSphereWith {F : Type} (ops : FloatOps F) (EPSILON : F) (c : Collision F) :
    Except Fault (Bool × Collision F) :=
  match c.m_object1, c.m_object2 with
  | .sphere sphere1, .sphere sphere2 =>
    let collDistance := ops.add sphere1.radius sphere2.radius
    let collNormal := ops.vsub sphere2.position sphere1.position
    let collNormalLength := ops.norm collNormal
    if ops.lt collNormalLength collDistance then
      let c1 := { c with m_collisionNormal := ops.normalized collNormal }
      if ops.lt (ops.abs (ops.sub (ops.norm c1.m_collisionNormal) ops.one)) EPSILON then
        .ok (true,
          { c1 with
            m_collisionPoint1 :=
              ops.vadd sphere1.position (ops.vscale (ops.normalized collNormal) sphere1.radius)
            m_collisionPoint2 :=
              ops.vsub sphere2.position (ops.vscale (ops.normalized collNormal) sphere2.radius)
            m_interpenetrationDepth := ops.sub collDistance collNormalLength })
      else .error Fault.assertionFailed
    else .ok (false, c)
  | _, _ => .error Fault.nullDereference

/-- The sign triples `(i, j, k)` of the loops of lines 88-90, converted to
`float_t`. -/
def cornerSignsWith {F : Type} (ops : FloatOps F) : List (F × F × F) :=
  [ops.neg ops.one, ops.one].flatMap fun i =>
    [ops.neg ops.one, ops.one].flatMap fun j => [ops.neg ops.one, ops.one].map fun k => (i, j, k)

/-- The value `dist` of line 94 for the corner of signs `s`, with the operations
of `ops`. -/
def cornerDistWith {F : Type} (ops : FloatOps F) (myBox : Box F) (c : Collision F)
    (s : F × F × F) : F :=
  let boxCorner : Vector3f F :=
    ⟨ops.mul s.1 myBox.halfSize.x, ops.mul s.2.1 myBox.halfSize.y,
      ops.mul s.2.2 myBox.halfSize.z⟩
  let boxCorner := ops.apply myBox.modelMatrix boxCorner
  let collisionPointToCorner := ops.vsub boxCorner c.m_collisionPoint2
  ops.dot collisionPointToCorner c.m_collisionNormal

/-- The counter `pointsAbove` after the loops of lines 88-103, with the operations
of `ops`. -/
def pointsAboveWith {F : Type} (ops : FloatOps F) (EPSILON : F) (myBox : Box F)
    (c : Collision F) : Nat :=
  ((cornerSignsWith ops).filter fun s =>
    ops.le (ops.neg EPSILON) (cornerDistWith ops myBox c s)).length

/-- The counter `pointsBelow` after the loops of lines 88-103, with the operations
of `ops`. -/
def pointsBelowWith {F : Type} (ops : FloatOps F) (EPSILON : F) (myBox : Box F)
    (c : Collision F) : Nat :=
  ((cornerSignsWith ops).filter fun s => ops.lt (cornerDistWith ops myBox c s) EPSILON).length

/-- Translation of `Collision::detectSphereBox` (lines 61-108) with the operations
of `ops`. -/
def detectSphereBoxWith {F : Type} (ops : FloatOps F) (EPSILON : F) (c : Collision F) :
    Except Fault (Bool × Collision F) :=
  match c.m_object2, c.m_object1 with
  | .box myBox, .sphere mySphere =>
    let aabox : AABox F := ⟨myBox.halfSize⟩
    let sphereLocation := ops.apply myBox.invModelMatrix mySphere.position
    let boxSurfacePoint := aabox.closestPointOnSurfaceWith ops sphereLocation
    let collNormalOld := ops.vsub boxSurfacePoint sphereLocation
    let collNormal := ops.mulVec myBox.modelMatrix.linear collNormalOld
    let collNormalLength := ops.norm collNormal
    let collNormal := ops.normalized collNormal
    if ops.lt collNormalLength mySphere.radius then
      let c1 : Collision F :=
        { c with
          m_collisionPoint1 :=
            ops.vadd (ops.apply myBox.modelMatrix sphereLocation)
              (ops.smul mySphere.radius collNormal)
          m_collisionPoint2 := ops.apply myBox.modelMatrix boxSurfacePoint
          m_collisionNormal := collNormal
          m_interpenetrationDepth := ops.sub mySphere.radius collNormalLength }
      let collisionPointToCenter := ops.vsub mySphere.position c1.m_collisionPoint1
      let distSpherePlane := ops.abs (ops.dot c1.m_collisionNormal collisionPointToCenter)
      if ops.le (ops.sub mySphere.radius EPSILON) distSpherePlane then
        if pointsBelowWith ops EPSILON myBox c1 = 8 ∨ pointsAboveWith ops EPSILON myBox c1 = 8 then
          .ok (true, c1)
        else .error Fault.assertionFailed
      else .error Fault.assertionFailed
    else .ok (false, c)
  | _, _ => .error Fault.nullDereference

/-! ## Concrete inputs -/

/-- A fresh SPHERE_SPHERE record for the spheres `a` and `b`, outputs zeroed. -/
def spherePair {F : Type} [LinearOrderedField F] (a b : Sphere F) : Collision F :=
  ⟨CollisionType.SPHERE_SPHERE, Object.sphere a, Object.sphere b, none,
    Vector3f.zero, Vector3f.zero, Vector3f.zero, 0⟩

/-- A fresh SPHERE_BOX record for the sphere `a` and the box `b`, outputs zeroed. -/
def sphereBoxPair {F : Type} [LinearOrderedField F] (a : Sphere F) (b : Box F) : Collision F :=
  ⟨CollisionType.SPHERE_BOX, Object.sphere a, Object.box b, none,
    Vector3f.zero, Vector3f.zero, Vector3f.zero, 0⟩

/-- A box at the origin with identity model transform and half-extents `h`. -/
def axisAlignedBox {F : Type} [LinearOrderedField F] (h : Vector3f F) : Box F :=
  ⟨Vector3f.zero, Affine3f.identity, Affine3f.identity, h⟩

/-- A unit sphere centred at the origin. -/
def unitSphere : Sphere ℚ := ⟨⟨0, 0, 0⟩, 1⟩

/-- An axis-aligned box at the origin with half-extents 1. -/
def unitBox : Box ℚ := ⟨⟨0, 0, 0⟩, Affine3f.identity, Affine3f.identity, ⟨1, 1, 1⟩⟩

/-- An axis-aligned box at the origin with half-extents 2. -/
def bigBox : Box ℚ := ⟨⟨0, 0, 0⟩, Affine3f.identity, Affine3f.identity, ⟨2, 2, 2⟩⟩

/-- A fresh BOX_BOX record for the boxes `a` and `b`, outputs zeroed. -/
def boxBoxPair {F : Type} [LinearOrderedField F] (a b : Box F) : Collision F :=
  ⟨CollisionType.BOX_BOX, Object.box a, Object.box b, none,
    Vector3f.zero, Vector3f.zero, Vector3f.zero, 0⟩

/-- An unrotated box of half-extents `h` whose centre is at `t`: the model
transform is the translation by `t`, its inverse the translation by `-t`. -/
def translatedBox {F : Type} [LinearOrderedField F] (t h : Vector3f F) : Box F :=
  ⟨t, ⟨Matrix3f.identity, t⟩, ⟨Matrix3f.identity, t.neg⟩, h⟩

/-- A fresh SPHERE_SPHERE record of binary32 numbers for the spheres `a` and `b`,
outputs zeroed. -/
def binary32SpherePair (a b : Sphere Int) : Collision Int :=
  ⟨CollisionType.SPHERE_SPHERE, Object.sphere a, Object.sphere b, none,
    ⟨0, 0, 0⟩, ⟨0, 0, 0⟩, ⟨0, 0, 0⟩, 0⟩

/-- A fresh SPHERE_BOX record of binary32 numbers for the sphere `a` and the box
`b`, outputs zeroed. -/
def binary32SphereBoxPair (a : Sphere Int) (b : Box Int) : Collision Int :=
  ⟨CollisionType.SPHERE_BOX, Object.sphere a, Object.box b, none,
    ⟨0, 0, 0⟩, ⟨0, 0, 0⟩, ⟨0, 0, 0⟩, 0⟩

/-- The binary32 number nearest to `0.001`, that is `8589935 * 2^-33`: the value
taken for `EPSILON` in the binary32 runs. -/
def binary32Epsilon : Int := Binary32.ofScaled 8589935 116

/-- The binary32 sphere of radius 1 centred at `p`. -/
def binary32UnitSphere (p : Vector3f Int) : Sphere Int := ⟨p, Binary32.ofScaled 1 149⟩

/-- A binary32 cube of half-extent 1 centred at `(1000000, 1000000, 0)` and turned
about the z axis: the linear part of the model transform has the rows
`(a, -b, 0)`, `(b, a, 0)`, `(0, 0, 1)` with `a = 5033165 * 2^-23` and
`b = 13421773 * 2^-24`, the binary32 numbers nearest to `0.6` and `0.8`.  The
inverse transform has the transposed rows and the translation
`(-1400000, 200000, 0)`, which is minus the transposed matrix applied to the
centre, computed in binary32. -/
def farTurnedCube : Box Int :=
  ⟨⟨Binary32.ofScaled 1000000 149, Binary32.ofScaled 1000000 149, 0⟩,
    ⟨⟨⟨Binary32.ofScaled 5033165 126, -Binary32.ofScaled 13421773 125, 0⟩,
        ⟨Binary32.ofScaled 13421773 125, Binary32.ofScaled 5033165 126, 0⟩,
        ⟨0, 0, Binary32.ofScaled 1 149⟩⟩,
      ⟨Binary32.ofScaled 1000000 149, Binary32.ofScaled 1000000 149, 0⟩⟩,
    ⟨⟨⟨Binary32.ofScaled 5033165 126, Binary32.ofScaled 13421773 125, 0⟩,
        ⟨-Binary32.ofScaled 13421773 125, Binary32.ofScaled 5033165 126, 0⟩,
        ⟨0, 0, Binary32.ofScaled 1 149⟩⟩,
      ⟨-Binary32.ofScaled 1400000 149, Binary32.ofScaled 200000 149, 0⟩⟩,
    ⟨Binary32.ofScaled 1 149, Binary32.ofScaled 1 149, Binary32.ofScaled 1 149⟩⟩

/-- The binary32 sphere of radius 1 centred at `(1000001.0625, 999999.5, 0)`: in the
frame of `farTurnedCube` its centre is about `(0.2375, -1.15, 0)`, at the distance
0.15 below the face `y = -1`. -/
def farSphere : Sphere Int :=
  binary32UnitSphere ⟨Binary32.ofScaled 16000017 145, Binary32.ofScaled 1999999 148, 0⟩

/-! ## Vocabulary of the statements -/

/-- The local `collNormal` of `detectSphereBox` before it is normalized (line 70):
the linear part of the model transform applied to the vector from the sphere's
centre, in the box frame, to the closest point of the box surface. -/
def sphereBoxNormal (mySphere : Sphere F) (myBox : Box F) : Vector3f F :=
  myBox.modelMatrix.linear.mulVec
    (((AABox.mk myBox.halfSize).closestPointOnSurface
        (myBox.invModelMatrix.apply mySphere.position)).sub
      (myBox.invModelMatrix.apply mySphere.position))

/-- The record after the four assignments of lines 75-78 of `detectSphereBox`. -/
def sphereBoxContact (sqrt : F → F) (c : Collision F) (mySphere : Sphere F) (myBox : Box F) :
    Collision F :=
  { c with
    m_collisionPoint1 :=
      (myBox.modelMatrix.apply (myBox.invModelMatrix.apply mySphere.position)).add
        (((sphereBoxNormal mySphere myBox).normalized sqrt).scale mySphere.radius)
    m_collisionPoint2 :=
      myBox.modelMatrix.apply
        ((AABox.mk myBox.halfSize).closestPointOnSurface
          (myBox.invModelMatrix.apply mySphere.position))
    m_collisionNormal := (sphereBoxNormal mySphere myBox).normalized sqrt
    m_interpenetrationDepth := mySphere.radius - (sphereBoxNormal mySphere myBox).norm sqrt }

/-- The two locals of `detectBoxBox` that decide its effect: `minOverlap` and
`minOverlapAxis`. -/
def AxisSearch.best {F : Type} (s : AxisSearch F) : F × Vector3f F :=
  (s.minOverlap, s.minOverlapAxis)

/-- One axis test of `detectBoxBox` seen on `(minOverlap, minOverlapAxis)` only;
`none` is the `return false` inside the test. -/
def axisStep (EPSILON : F) (bp : BoxProjection F) (s : F × Vector3f F) (axis : Vector3f F) :
    Option (F × Vector3f F) :=
  if bp.overlapOnAxis axis < s.1 then
    if bp.overlapOnAxis axis < EPSILON then none else some (bp.overlapOnAxis axis, axis)
  else some s

/-- The axis tests of `detectBoxBox` run over a list of axes. -/
def scanAxes (EPSILON : F) (bp : BoxProjection F) (axes : List (Vector3f F))
    (s : F × Vector3f F) : Option (F × Vector3f F) :=
  axes.foldlM (axisStep EPSILON bp) s

/-- The fifteen axes in the order in which `detectBoxBox` tests them: the face
axes of the two boxes interleaved, then the nine normalized cross products. -/
def testedAxes (sqrt : F → F) (box1Axis box2Axis : Fin 3 → Vector3f F) : List (Vector3f F) :=
  [box1Axis 0, box2Axis 0, box1Axis 1, box2Axis 1, box1Axis 2, box2Axis 2,
    ((box1Axis 0).cross (box2Axis 0)).normalized sqrt,
    ((box1Axis 0).cross (box2Axis 1)).normalized sqrt,
    ((box1Axis 0).cross (box2Axis 2)).normalized sqrt,
    ((box1Axis 1).cross (box2Axis 0)).normalized sqrt,
    ((box1Axis 1).cross (box2Axis 1)).normalized sqrt,
    ((box1Axis 1).cross (box2Axis 2)).normalized sqrt,
    ((box1Axis 2).cross (box2Axis 0)).normalized sqrt,
    ((box1Axis 2).cross (box2Axis 1)).normalized sqrt,
    ((box1Axis 2).cross (box2Axis 2)).normalized sqrt]

/-- The BoxProjection that `detectBoxBox` builds on line 119. -/
def boxProjection (sqrt : F → F) (myBox1 myBox2 : Box F) : BoxProjection F :=
  ⟨boxAxis sqrt myBox1, myBox1.halfSize, boxAxis sqrt myBox2, myBox2.halfSize,
    myBox2.position.sub myBox1.position⟩

/-- The local `collNormal` of `detectSphereBox` before it is normalized (line 70),
with the operations of `ops`. -/
def sphereBoxNormalWith {F : Type} (ops : FloatOps F) (mySphere : Sphere F) (myBox : Box F) :
    Vector3f F :=
  ops.mulVec myBox.modelMatrix.linear
    (ops.vsub
      ((AABox.mk myBox.halfSize).closestPointOnSurfaceWith ops
        (ops.apply myBox.invModelMatrix mySphere.position))
      (ops.apply myBox.invModelMatrix mySphere.position))

/-- The record after the four assignments of lines 75-78 of `detectSphereBox`, with
the operations of `ops`. -/
def sphereBoxContactWith {F : Type} (ops : FloatOps F) (c : Collision F) (mySphere : Sphere F)
    (myBox : Box F) : Collision F :=
  { c with
    m_collisionPoint1 :=
      ops.vadd (ops.apply myBox.modelMatrix (ops.apply myBox.invModelMatrix mySphere.position))
        (ops.smul mySphere.radius (ops.normalized (sphereBoxNormalWith ops mySphere myBox)))
    m_collisionPoint2 :=
      ops.apply myBox.modelMatrix
        ((AABox.mk myBox.halfSize).closestPointOnSurfaceWith ops
          (ops.apply myBox.invModelMatrix mySphere.position))
    m_collisionNormal := ops.normalized (sphereBoxNormalWith ops mySphere myBox)
    m_interpenetrationDepth :=
      ops.sub mySphere.radius (ops.norm (sphereBoxNormalWith ops mySphere myBox)) }

/-- The value `distSpherePlane` of line 82 of `detectSphereBox`, with the
operations of `ops`. -/
def distSpherePlaneWith {F : Type} (ops : FloatOps F) (c : Collision F) (mySphere : Sphere F)
    (myBox : Box F) : F :=
  ops.abs
    (ops.dot (sphereBoxContactWith ops c mySphere myBox).m_collisionNormal
      (ops.vsub mySphere.position (sphereBoxContactWith ops c mySphere myBox).m_collisionPoint1))

end Collision

end engine

end gp

/-! # Theorems -/

namespace gp.engine.Collision

/-! ## The classifier -/

/-- C1: when exactly one of `o1`, `o2` is a Sphere, `getFirstObject` is that Sphere
and `getSecondObject` is the other object, in either argument position. -/
theorem getFirstObject_sphere_first {F : Type} (o1 o2 : Object F)
    (h : o1.isSphere ≠ o2.isSphere) :
    (getFirstObject o1 o2).isSphere = true ∧ (getSecondObject o1 o2).isSphere = false ∧
    (o1.isSphere = true → getFirstObject o1 o2 = o1 ∧ getSecondObject o1 o2 = o2) ∧
    (o2.isSphere = true → getFirstObject o1 o2 = o2 ∧ getSecondObject o1 o2 = o1) := by
  unfold getFirstObject getSecondObject
  cases h1 : o1.isSphere <;> cases h2 : o2.isSphere <;> simp_all

/-- Witness of C1: a box passed first and a sphere passed second. -/
theorem getFirstObject_sphere_first_witness :
    (Object.box unitBox).isSphere ≠ (Object.sphere unitSphere).isSphere ∧
    getFirstObject (Object.box unitBox) (Object.sphere unitSphere) = Object.sphere unitSphere ∧
    getSecondObject (Object.box unitBox) (Object.sphere unitSphere) = Object.box unitBox :=
  ⟨by decide,
   ((getFirstObject_sphere_first (Object.box unitBox) (Object.sphere unitSphere)
      (by decide)).2.2.2 rfl)⟩

/-- Counterexample to C2: two distinct boxes do not keep their input order,
`getFirstObject` is the second argument. -/
theorem getFirstObject_two_boxes_swapped :
    (Object.box unitBox).isBox = true ∧ (Object.box bigBox).isBox = true ∧
    getFirstObject (Object.box unitBox) (Object.box bigBox) ≠ Object.box unitBox ∧
    getSecondObject (Object.box unitBox) (Object.box bigBox) ≠ Object.box bigBox := by
  refine ⟨rfl, rfl, ?_, ?_⟩ <;>
    simp [getFirstObject, getSecondObject, Object.isSphere, unitBox, bigBox]

/-- C2 as amended: two Spheres keep their input order, two Boxes are returned in
the opposite order. -/
theorem getFirstObject_same_kind {F : Type} (s1 s2 : Sphere F) (b1 b2 : Box F) :
    (getFirstObject (Object.sphere s1) (Object.sphere s2) = Object.sphere s1 ∧
      getSecondObject (Object.sphere s1) (Object.sphere s2) = Object.sphere s2) ∧
    (getFirstObject (Object.box b1) (Object.box b2) = Object.box b2 ∧
      getSecondObject (Object.box b1) (Object.box b2) = Object.box b1) :=
  ⟨⟨rfl, rfl⟩, ⟨rfl, rfl⟩⟩

/-- C3: for objects that are each a Sphere or a Box, `getType` is SPHERE_SPHERE
exactly when both are Spheres, SPHERE_BOX exactly when one of the two is a Sphere
and the other is not, and BOX_BOX exactly when both are Boxes. -/
theorem getType_classifies {F : Type} (o1 o2 : Object F)
    (h1 : o1.isSphere = true ∨ o1.isBox = true) (h2 : o2.isSphere = true ∨ o2.isBox = true) :
    (getType o1 o2 = CollisionType.SPHERE_SPHERE ↔
      (o1.isSphere = true ∧ o2.isSphere = true)) ∧
    (getType o1 o2 = CollisionType.SPHERE_BOX ↔ o1.isSphere ≠ o2.isSphere) ∧
    (getType o1 o2 = CollisionType.BOX_BOX ↔ (o1.isBox = true ∧ o2.isBox = true)) := by
  cases o1 <;> cases o2 <;> simp_all [getType, Object.isSphere, Object.isBox]

/-- Witness of C3: a box and a sphere are classified SPHERE_BOX. -/
theorem getType_classifies_witness :
    getType (Object.box unitBox) (Object.sphere unitSphere) = CollisionType.SPHERE_BOX :=
  ((getType_classifies (Object.box unitBox) (Object.sphere unitSphere)
      (Or.inr rfl) (Or.inl rfl)).2.1).2 (by decide)

end gp.engine.Collision

/-! ## Vector and square-root lemmas -/

namespace gp

variable {F : Type} [LinearOrderedField F]

theorem IsSqrt.sqrt_zero {sqrt : F → F} (hs : IsSqrt sqrt) : sqrt 0 = 0 := by
  have h := (hs 0 le_rfl).2
  exact mul_self_eq_zero.mp h

theorem IsSqrt.sqrt_one {sqrt : F → F} (hs : IsSqrt sqrt) : sqrt 1 = 1 := by
  obtain ⟨h0, h1⟩ := hs 1 zero_le_one
  nlinarith [h0, h1]

theorem IsSqrt.sqrt_pos {sqrt : F → F} (hs : IsSqrt sqrt) {x : F} (hx : 0 < x) :
    0 < sqrt x := by
  obtain ⟨h0, h1⟩ := hs x hx.le
  rcases h0.eq_or_lt with h | h
  · rw [← h, zero_mul] at h1
    exact absurd h1 hx.ne
  · exact h

theorem IsSqrt.sqrt_mul_self {sqrt : F → F} (hs : IsSqrt sqrt) {a : F} (ha : 0 ≤ a) :
    sqrt (a * a) = a := by
  obtain ⟨h0, h1⟩ := hs (a * a) (mul_self_nonneg a)
  exact (mul_self_inj h0 ha).mp h1

theorem isSqrt_real : IsSqrt Real.sqrt :=
  fun x hx => ⟨Real.sqrt_nonneg x, Real.mul_self_sqrt hx⟩

namespace Vector3f

theorem squaredNorm_nonneg (a : Vector3f F) : 0 ≤ a.squaredNorm := by
  unfold squaredNorm dot
  nlinarith [mul_self_nonneg a.x, mul_self_nonneg a.y, mul_self_nonneg a.z]

theorem squaredNorm_eq_zero {a : Vector3f F} (h : a.squaredNorm = 0) : a = zero := by
  unfold squaredNorm dot at h
  have hx : a.x = 0 := by
    nlinarith [mul_self_nonneg a.x, mul_self_nonneg a.y, mul_self_nonneg a.z]
  have hy : a.y = 0 := by
    nlinarith [mul_self_nonneg a.x, mul_self_nonneg a.y, mul_self_nonneg a.z]
  have hz : a.z = 0 := by
    nlinarith [mul_self_nonneg a.x, mul_self_nonneg a.y, mul_self_nonneg a.z]
  ext <;> simp [zero, hx, hy, hz]

theorem squaredNorm_zero : (zero : Vector3f F).squaredNorm = 0 := by
  simp [squaredNorm, dot, zero]

theorem norm_along_x {sqrt : F → F} (hs : IsSqrt sqrt) {a : F} (ha : 0 ≤ a) :
    (⟨a, 0, 0⟩ : Vector3f F).norm sqrt = a := by
  simp [norm, squaredNorm, dot, hs.sqrt_mul_self ha]

theorem dot_zero (a : Vector3f F) : a.dot zero = 0 := by
  simp [dot, zero]

theorem zero_dot (a : Vector3f F) : (zero : Vector3f F).dot a = 0 := by
  simp [dot, zero]

theorem scale_zero (s : F) : (zero : Vector3f F).scale s = zero := by
  ext <;> simp [scale, zero]

theorem add_zero (a : Vector3f F) : a.add zero = a := by
  ext <;> simp [add, zero]

theorem squaredNorm_neg (a : Vector3f F) : a.neg.squaredNorm = a.squaredNorm := by
  simp [squaredNorm, dot, neg]

theorem sub_swap (a b : Vector3f F) : a.sub b = (b.sub a).neg := by
  ext <;> simp [sub, neg]

theorem sub_self (a : Vector3f F) : a.sub a = zero := by
  ext <;> simp [sub, zero]

theorem norm_neg (sqrt : F → F) (a : Vector3f F) : a.neg.norm sqrt = a.norm sqrt := by
  simp [norm, squaredNorm_neg]

theorem normalized_neg (sqrt : F → F) (a : Vector3f F) :
    a.neg.normalized sqrt = (a.normalized sqrt).neg := by
  unfold normalized
  simp only [squaredNorm_neg]
  split_ifs
  · ext <;> simp [divScalar, neg, neg_div]
  · rfl

theorem normalized_zero (sqrt : F → F) : (zero : Vector3f F).normalized sqrt = zero := by
  simp [normalized, squaredNorm_zero]

/-- The unit vector is the vector divided by its length, the zero vector included. -/
theorem normalized_eq_div_norm (sqrt : F → F) (a : Vector3f F) :
    a.normalized sqrt = a.divScalar (a.norm sqrt) := by
  unfold normalized
  by_cases h : 0 < a.squaredNorm
  · simp [h, norm]
  · have h0 : a.squaredNorm = 0 := le_antisymm (not_lt.mp h) (squaredNorm_nonneg a)
    have ha : a = zero := squaredNorm_eq_zero h0
    subst ha
    simp [squaredNorm_zero, divScalar, zero]

theorem squaredNorm_divScalar (a : Vector3f F) (s : F) :
    (a.divScalar s).squaredNorm = a.squaredNorm / (s * s) := by
  simp only [squaredNorm, dot, divScalar]
  by_cases hs : s = 0
  · simp [hs]
  · field_simp

/-- A vector of positive squared length is normalized to length one. -/
theorem norm_normalized {sqrt : F → F} (hs : IsSqrt sqrt) {a : Vector3f F}
    (h : 0 < a.squaredNorm) : (a.normalized sqrt).norm sqrt = 1 := by
  have hz : sqrt a.squaredNorm * sqrt a.squaredNorm = a.squaredNorm := (hs _ h.le).2
  unfold normalized norm
  simp only [h, if_true, squaredNorm_divScalar, hz]
  rw [div_self h.ne.symm]
  exact hs.sqrt_one

theorem norm_pos {sqrt : F → F} (hs : IsSqrt sqrt) {a : Vector3f F}
    (h : 0 < a.norm sqrt) : 0 < a.squaredNorm := by
  rcases (squaredNorm_nonneg a).eq_or_lt with h0 | h0
  · unfold norm at h
    rw [← h0, hs.sqrt_zero] at h
    exact absurd h (lt_irrefl _)
  · exact h0

end Vector3f

end gp

/-! ## Sphere against sphere -/

namespace gp.engine.Collision

variable {F : Type} [LinearOrderedField F]

/-- The routine on two spheres, with the two pointer casts resolved. -/
theorem detectSphereSphere_spheres (sqrt : F → F) (EPSILON : F) (c : Collision F)
    (s1 s2 : Sphere F) (h1 : c.m_object1 = Object.sphere s1)
    (h2 : c.m_object2 = Object.sphere s2) :
    detectSphereSphere sqrt EPSILON c =
      if (s2.position.sub s1.position).norm sqrt < s1.radius + s2.radius then
        if abs (((s2.position.sub s1.position).normalized sqrt).norm sqrt - 1) < EPSILON then
          Except.ok (true,
            { c with
              m_collisionNormal := (s2.position.sub s1.position).normalized sqrt
              m_collisionPoint1 :=
                s1.position.add
                  (((s2.position.sub s1.position).normalized sqrt).scale s1.radius)
              m_collisionPoint2 :=
                s2.position.sub
                  (((s2.position.sub s1.position).normalized sqrt).scale s2.radius)
              m_interpenetrationDepth :=
                s1.radius + s2.radius - (s2.position.sub s1.position).norm sqrt })
        else Except.error Fault.assertionFailed
      else Except.ok (false, c) := by
  unfold detectSphereSphere
  simp only [h1, h2]

/-- Concentric spheres of positive total radius fail the assertion of line 52. -/
theorem detectSphereSphere_concentric_aux (sqrt : F → F) (EPSILON : F) (c : Collision F)
    (s1 s2 : Sphere F) (h1 : c.m_object1 = Object.sphere s1)
    (h2 : c.m_object2 = Object.sphere s2) (h0 : sqrt 0 = 0) (hE : EPSILON ≤ 1)
    (hp : s2.position = s1.position) (hr : 0 < s1.radius + s2.radius) :
    detectSphereSphere sqrt EPSILON c = Except.error Fault.assertionFailed := by
  rw [detectSphereSphere_spheres sqrt EPSILON c s1 s2 h1 h2, hp, Vector3f.sub_self,
    Vector3f.normalized_zero]
  simp only [Vector3f.norm, Vector3f.squaredNorm_zero, h0]
  rw [if_pos hr, if_neg]
  simpa using hE

end gp.engine.Collision

namespace gp.engine.Collision

variable {F : Type} [LinearOrderedField F]

/-- In exact arithmetic: two spheres whose centres are a positive distance apart,
less than the sum of the radii: the routine returns true and writes the contact
geometry. -/
theorem detectSphereSphere_hit_aux (sqrt : F → F) (EPSILON : F) (c : Collision F)
    (s1 s2 : Sphere F) (h1 : c.m_object1 = Object.sphere s1)
    (h2 : c.m_object2 = Object.sphere s2) (hs : IsSqrt sqrt) (hE : 0 < EPSILON)
    (hpos : 0 < (s2.position.sub s1.position).norm sqrt)
    (hlt : (s2.position.sub s1.position).norm sqrt < s1.radius + s2.radius) :
    detectSphereSphere sqrt EPSILON c =
      Except.ok (true,
        { c with
          m_collisionNormal :=
            (s2.position.sub s1.position).divScalar ((s2.position.sub s1.position).norm sqrt)
          m_collisionPoint1 :=
            s1.position.add
              (((s2.position.sub s1.position).divScalar
                ((s2.position.sub s1.position).norm sqrt)).scale s1.radius)
          m_collisionPoint2 :=
            s2.position.sub
              (((s2.position.sub s1.position).divScalar
                ((s2.position.sub s1.position).norm sqrt)).scale s2.radius)
          m_interpenetrationDepth :=
            s1.radius + s2.radius - (s2.position.sub s1.position).norm sqrt }) := by
  rw [detectSphereSphere_spheres sqrt EPSILON c s1 s2 h1 h2, if_pos hlt,
    Vector3f.norm_normalized hs (Vector3f.norm_pos hs hpos), if_pos (by simpa using hE),
    Vector3f.normalized_eq_div_norm]

/-- The run of the spec's concrete case in exact real arithmetic. -/
theorem detectSphereSphere_concrete_aux :
    detectSphereSphere Real.sqrt (1 / 1000)
        (spherePair ⟨⟨0, 0, 0⟩, 1⟩ ⟨⟨3 / 2, 0, 0⟩, 1⟩) =
      Except.ok (true,
        { spherePair ⟨⟨0, 0, 0⟩, 1⟩ ⟨⟨3 / 2, 0, 0⟩, 1⟩ with
          m_collisionNormal := ⟨1, 0, 0⟩
          m_collisionPoint1 := ⟨1, 0, 0⟩
          m_collisionPoint2 := ⟨1 / 2, 0, 0⟩
          m_interpenetrationDepth := 1 / 2 }) := by
  have hn : ((⟨3 / 2, 0, 0⟩ : Vector3f ℝ).sub ⟨0, 0, 0⟩).norm Real.sqrt = 3 / 2 := by
    have : (⟨3 / 2, 0, 0⟩ : Vector3f ℝ).sub ⟨0, 0, 0⟩ = ⟨3 / 2, 0, 0⟩ := by
      ext <;> simp [Vector3f.sub]
    rw [this]
    exact Vector3f.norm_along_x isSqrt_real (by norm_num)
  rw [detectSphereSphere_hit_aux Real.sqrt (1 / 1000) _ ⟨⟨0, 0, 0⟩, 1⟩ ⟨⟨3 / 2, 0, 0⟩, 1⟩ rfl rfl
    isSqrt_real (by norm_num) (by rw [hn]; norm_num) (by rw [hn]; norm_num), hn]
  simp only [spherePair, Vector3f.sub, Vector3f.add, Vector3f.scale, Vector3f.divScalar]
  norm_num

end gp.engine.Collision

namespace gp.engine.Collision

variable {F : Type} [LinearOrderedField F]

/-- C4 at the failing inputs: two concentric spheres of positive total radius are
closer than the sum of their radii, yet the routine does not return true, it stops
at the assertion of line 52. -/
theorem detectSphereSphere_concentric_not_true (sqrt : F → F) (EPSILON : F) (c : Collision F)
    (s1 s2 : Sphere F) (h1 : c.m_object1 = Object.sphere s1)
    (h2 : c.m_object2 = Object.sphere s2) (hs : IsSqrt sqrt) (hE : EPSILON ≤ 1)
    (hp : s2.position = s1.position) (hr : 0 < s1.radius + s2.radius) :
    (s2.position.sub s1.position).norm sqrt < s1.radius + s2.radius ∧
    (¬ ∃ st, detectSphereSphere sqrt EPSILON c = Except.ok (true, st)) ∧
    detectSphereSphere sqrt EPSILON c = Except.error Fault.assertionFailed := by
  have hf := detectSphereSphere_concentric_aux sqrt EPSILON c s1 s2 h1 h2 hs.sqrt_zero hE hp hr
  refine ⟨?_, ?_, hf⟩
  · rw [hp, Vector3f.sub_self]
    simpa [Vector3f.norm, Vector3f.squaredNorm_zero, hs.sqrt_zero] using hr
  · rintro ⟨st, hst⟩
    rw [hf] at hst
    exact absurd hst (by simp)

/-- Witness of C4: two unit spheres centred at the origin, EPSILON = 1/1000. -/
theorem detectSphereSphere_concentric_not_true_witness :
    ((⟨0, 0, 0⟩ : Vector3f ℝ).sub ⟨0, 0, 0⟩).norm Real.sqrt < 1 + 1 ∧
    detectSphereSphere Real.sqrt (1 / 1000) (spherePair ⟨⟨0, 0, 0⟩, 1⟩ ⟨⟨0, 0, 0⟩, 1⟩) =
      Except.error Fault.assertionFailed :=
  have h := detectSphereSphere_concentric_not_true Real.sqrt (1 / 1000)
    (spherePair ⟨⟨0, 0, 0⟩, 1⟩ ⟨⟨0, 0, 0⟩, 1⟩) ⟨⟨0, 0, 0⟩, 1⟩ ⟨⟨0, 0, 0⟩, 1⟩ rfl rfl
    isSqrt_real (by norm_num) rfl (by norm_num)
  ⟨h.1, h.2.2⟩

/-- In exact arithmetic, away from the concentric case, the decision of the
routine is the strict comparison: it returns true exactly when the distance of the centres is less than
the sum of the radii, and false otherwise. -/
theorem detectSphereSphere_decision (sqrt : F → F) (EPSILON : F) (c : Collision F)
    (s1 s2 : Sphere F) (h1 : c.m_object1 = Object.sphere s1)
    (h2 : c.m_object2 = Object.sphere s2) (hs : IsSqrt sqrt) (hE : 0 < EPSILON)
    (hne : s2.position ≠ s1.position) :
    ((∃ st, detectSphereSphere sqrt EPSILON c = Except.ok (true, st)) ↔
      (s2.position.sub s1.position).norm sqrt < s1.radius + s2.radius) ∧
    ((∃ st, detectSphereSphere sqrt EPSILON c = Except.ok (false, st)) ↔
      s1.radius + s2.radius ≤ (s2.position.sub s1.position).norm sqrt) := by
  have hsq : 0 < (s2.position.sub s1.position).squaredNorm := by
    rcases (Vector3f.squaredNorm_nonneg (s2.position.sub s1.position)).eq_or_lt with h | h
    · exfalso
      apply hne
      have hz := Vector3f.squaredNorm_eq_zero h.symm
      have hx := congrArg Vector3f.x hz
      have hy := congrArg Vector3f.y hz
      have hzz := congrArg Vector3f.z hz
      simp only [Vector3f.sub, Vector3f.zero] at hx hy hzz
      ext
      · exact sub_eq_zero.mp hx
      · exact sub_eq_zero.mp hy
      · exact sub_eq_zero.mp hzz
    · exact h
  rw [detectSphereSphere_spheres sqrt EPSILON c s1 s2 h1 h2, Vector3f.norm_normalized hs hsq]
  have hE1 : abs ((1 : F) - 1) < EPSILON := by simpa using hE
  simp only [hE1, if_true]
  by_cases hlt : (s2.position.sub s1.position).norm sqrt < s1.radius + s2.radius
  · simp [hlt]
  · simp [hlt, not_lt.mp hlt]

/-- C6: on the spheres (A, B) and on (B, A) the routine ends the same way, with the
same boolean or at the same fault; when both runs return true the depths are equal
and the normals are exact opposites. -/
theorem detectSphereSphere_symmetric (sqrt : F → F) (EPSILON : F) (c c' : Collision F)
    (a b : Sphere F) (h1 : c.m_object1 = Object.sphere a) (h2 : c.m_object2 = Object.sphere b)
    (h1' : c'.m_object1 = Object.sphere b) (h2' : c'.m_object2 = Object.sphere a) :
    (detectSphereSphere sqrt EPSILON c).map Prod.fst =
      (detectSphereSphere sqrt EPSILON c').map Prod.fst ∧
    ∀ st st', detectSphereSphere sqrt EPSILON c = Except.ok (true, st) →
      detectSphereSphere sqrt EPSILON c' = Except.ok (true, st') →
      st'.m_interpenetrationDepth = st.m_interpenetrationDepth ∧
      st'.m_collisionNormal = st.m_collisionNormal.neg := by
  rw [detectSphereSphere_spheres sqrt EPSILON c a b h1 h2,
    detectSphereSphere_spheres sqrt EPSILON c' b a h1' h2', Vector3f.sub_swap a.position b.position,
    Vector3f.normalized_neg, Vector3f.norm_neg, Vector3f.norm_neg, add_comm b.radius a.radius]
  constructor
  · split_ifs <;> rfl
  · intro st st' h h'
    split_ifs at h h'
    · simp only [Except.ok.injEq, Prod.mk.injEq, true_and] at h h'
      subst h h'
      exact ⟨rfl, rfl⟩
    · simp at h

/-- Witness of C6: the spec's concrete pair in both orders returns true. -/
theorem detectSphereSphere_symmetric_witness :
    (detectSphereSphere Real.sqrt (1 / 1000)
        (spherePair ⟨⟨3 / 2, 0, 0⟩, 1⟩ ⟨⟨0, 0, 0⟩, 1⟩)).map Prod.fst = Except.ok true := by
  rw [← (detectSphereSphere_symmetric Real.sqrt (1 / 1000)
    (spherePair ⟨⟨0, 0, 0⟩, 1⟩ ⟨⟨3 / 2, 0, 0⟩, 1⟩)
    (spherePair ⟨⟨3 / 2, 0, 0⟩, 1⟩ ⟨⟨0, 0, 0⟩, 1⟩) ⟨⟨0, 0, 0⟩, 1⟩ ⟨⟨3 / 2, 0, 0⟩, 1⟩
    rfl rfl rfl rfl).1, detectSphereSphere_concrete_aux]
  rfl

/-- C7 at the failing inputs: for concentric spheres of positive radii the routine
does not complete, the assertion of line 52 fails (the normalized zero vector has
length 0, not 1). -/
theorem detectSphereSphere_concentric_fails (sqrt : F → F) (EPSILON : F) (c : Collision F)
    (s1 s2 : Sphere F) (h1 : c.m_object1 = Object.sphere s1)
    (h2 : c.m_object2 = Object.sphere s2) (hs : IsSqrt sqrt) (hE : EPSILON ≤ 1)
    (hp : s2.position = s1.position) (hr1 : 0 < s1.radius) (hr2 : 0 < s2.radius) :
    detectSphereSphere sqrt EPSILON c = Except.error Fault.assertionFailed :=
  detectSphereSphere_concentric_aux sqrt EPSILON c s1 s2 h1 h2 hs.sqrt_zero hE hp
    (add_pos hr1 hr2)

/-- Witness of C7: two concentric spheres of radii 1 and 2. -/
theorem detectSphereSphere_concentric_fails_witness :
    detectSphereSphere Real.sqrt (1 / 1000)
        (spherePair ⟨⟨1, 2, 3⟩, 1⟩ ⟨⟨1, 2, 3⟩, 2⟩) = Except.error Fault.assertionFailed :=
  detectSphereSphere_concentric_fails Real.sqrt (1 / 1000) _ ⟨⟨1, 2, 3⟩, 1⟩ ⟨⟨1, 2, 3⟩, 2⟩
    rfl rfl isSqrt_real (by norm_num) rfl (by norm_num) (by norm_num)

end gp.engine.Collision

/-! ## Sphere against box -/

namespace gp

variable {F : Type} [LinearOrderedField F]

theorem Matrix3f.mulVec_zero (m : Matrix3f F) : m.mulVec Vector3f.zero = Vector3f.zero := by
  ext <;> simp [Matrix3f.mulVec, Vector3f.dot, Vector3f.zero]

theorem Affine3f.identity_apply (v : Vector3f F) :
    (Affine3f.identity : Affine3f F).apply v = v := by
  ext <;> simp [Affine3f.apply, Affine3f.identity, Matrix3f.identity, Matrix3f.mulVec,
    Vector3f.dot, Vector3f.add, Vector3f.zero]

end gp

namespace gp.engine.Collision

variable {F : Type} [LinearOrderedField F]

theorem cornerSigns_length : (cornerSigns : List (F × F × F)).length = 8 := rfl

/-- With a zero normal every corner has signed distance 0. -/
theorem cornerDist_zero_normal (myBox : Box F) (c : Collision F)
    (h : c.m_collisionNormal = Vector3f.zero) (s : F × F × F) : cornerDist myBox c s = 0 := by
  simp [cornerDist, h, Vector3f.dot_zero]

theorem pointsBelow_zero_normal {EPSILON : F} (hE : 0 < EPSILON) (myBox : Box F)
    (c : Collision F) (h : c.m_collisionNormal = Vector3f.zero) :
    pointsBelow EPSILON myBox c = 8 := by
  unfold pointsBelow
  rw [List.filter_eq_self.mpr, cornerSigns_length]
  intro s _
  simp [cornerDist_zero_normal myBox c h, hE]

theorem pointsAbove_zero_normal {EPSILON : F} (hE : 0 < EPSILON) (myBox : Box F)
    (c : Collision F) (h : c.m_collisionNormal = Vector3f.zero) :
    pointsAbove EPSILON myBox c = 8 := by
  unfold pointsAbove
  rw [List.filter_eq_self.mpr, cornerSigns_length]
  intro s _
  simp [cornerDist_zero_normal myBox c h, hE.le]

/-- The routine on a sphere and a box, with the two pointer casts resolved. -/
theorem detectSphereBox_sphere_box (sqrt : F → F) (EPSILON : F) (c : Collision F)
    (mySphere : Sphere F) (myBox : Box F) (h1 : c.m_object1 = Object.sphere mySphere)
    (h2 : c.m_object2 = Object.box myBox) :
    detectSphereBox sqrt EPSILON c =
      let sphereLocation := myBox.invModelMatrix.apply mySphere.position
      let boxSurfacePoint := (AABox.mk myBox.halfSize).closestPointOnSurface sphereLocation
      let collNormal := myBox.modelMatrix.linear.mulVec (boxSurfacePoint.sub sphereLocation)
      let c1 : Collision F :=
        { c with
          m_collisionPoint1 :=
            (myBox.modelMatrix.apply sphereLocation).add
              ((collNormal.normalized sqrt).scale mySphere.radius)
          m_collisionPoint2 := myBox.modelMatrix.apply boxSurfacePoint
          m_collisionNormal := collNormal.normalized sqrt
          m_interpenetrationDepth := mySphere.radius - collNormal.norm sqrt }
      if collNormal.norm sqrt < mySphere.radius then
        if mySphere.radius - EPSILON ≤
            abs (c1.m_collisionNormal.dot (mySphere.position.sub c1.m_collisionPoint1)) then
          if pointsBelow EPSILON myBox c1 = 8 ∨ pointsAbove EPSILON myBox c1 = 8 then
            Except.ok (true, c1)
          else Except.error Fault.assertionFailed
        else Except.error Fault.assertionFailed
      else Except.ok (false, c) := by
  unfold detectSphereBox
  simp only [h1, h2]

/-- A sphere whose centre is its own closest surface point in the box frame: the
un-normalized normal is the zero vector, and the routine returns true with a zero
normal when the radius is at most EPSILON and fails the assertion of line 83
otherwise. -/
theorem detectSphereBox_on_surface (sqrt : F → F) (EPSILON : F) (c : Collision F)
    (mySphere : Sphere F) (myBox : Box F) (h1 : c.m_object1 = Object.sphere mySphere)
    (h2 : c.m_object2 = Object.box myBox) (h0 : sqrt 0 = 0) (hE : 0 < EPSILON)
    (hr : 0 < mySphere.radius)
    (hsurf : (AABox.mk myBox.halfSize).closestPointOnSurface
      (myBox.invModelMatrix.apply mySphere.position) =
        myBox.invModelMatrix.apply mySphere.position) :
    detectSphereBox sqrt EPSILON c =
      if mySphere.radius ≤ EPSILON then
        Except.ok (true,
          { c with
            m_collisionPoint1 :=
              myBox.modelMatrix.apply (myBox.invModelMatrix.apply mySphere.position)
            m_collisionPoint2 :=
              myBox.modelMatrix.apply (myBox.invModelMatrix.apply mySphere.position)
            m_collisionNormal := Vector3f.zero
            m_interpenetrationDepth := mySphere.radius })
      else Except.error Fault.assertionFailed := by
  rw [detectSphereBox_sphere_box sqrt EPSILON c mySphere myBox h1 h2]
  simp only [hsurf, Vector3f.sub_self, Matrix3f.mulVec_zero, Vector3f.normalized_zero,
    Vector3f.norm, Vector3f.squaredNorm_zero, h0, Vector3f.scale_zero, Vector3f.add_zero,
    Vector3f.zero_dot, abs_zero, sub_zero, hr, if_true]
  rw [pointsBelow_zero_normal hE myBox _ rfl]
  simp

end gp.engine.Collision

namespace gp.engine

variable {F : Type} [LinearOrderedField F]

theorem clamp_of_mem {v lo hi : F} (h1 : lo ≤ v) (h2 : v ≤ hi) : clamp v lo hi = v := by
  unfold clamp
  rw [min_eq_left h2, max_eq_right h1]

/-- A point of the face `x = +halfSize.x` is its own closest surface point. -/
theorem AABox.closestPointOnSurface_face_x (h : Vector3f F) (y z : F) (hx : 0 ≤ h.x)
    (hy : abs y ≤ h.y) (hz : abs z ≤ h.z) :
    (AABox.mk h).closestPointOnSurface ⟨h.x, y, z⟩ = ⟨h.x, y, z⟩ := by
  unfold AABox.closestPointOnSurface
  have hnot : ¬ (abs h.x < h.x ∧ abs y < h.y ∧ abs z < h.z) := by
    intro hc
    rw [abs_of_nonneg hx] at hc
    exact lt_irrefl _ hc.1
  simp only [hnot, if_false]
  rw [clamp_of_mem (by linarith) le_rfl, clamp_of_mem (neg_le_of_abs_le hy) (le_of_abs_le hy),
    clamp_of_mem (neg_le_of_abs_le hz) (le_of_abs_le hz)]

end gp.engine

namespace gp.engine.Collision

variable {F : Type} [LinearOrderedField F]

/-- C8 at the failing inputs: a sphere of radius at most EPSILON whose centre
(1,0,0) lies on a face of the axis-aligned box of half-extents 1: the routine
returns true and the normal it leaves is the zero vector, whose length 0 is not
within EPSILON of 1. -/
theorem detectSphereBox_zero_normal (sqrt : F → F) (EPSILON r : F) (hs : IsSqrt sqrt)
    (hE : 0 < EPSILON) (hE1 : EPSILON ≤ 1) (hr : 0 < r) (hrE : r ≤ EPSILON) :
    detectSphereBox sqrt EPSILON (sphereBoxPair ⟨⟨1, 0, 0⟩, r⟩ (axisAlignedBox ⟨1, 1, 1⟩)) =
      Except.ok (true,
        { sphereBoxPair ⟨⟨1, 0, 0⟩, r⟩ (axisAlignedBox ⟨1, 1, 1⟩) with
          m_collisionPoint1 := ⟨1, 0, 0⟩
          m_collisionPoint2 := ⟨1, 0, 0⟩
          m_collisionNormal := ⟨0, 0, 0⟩
          m_interpenetrationDepth := r }) ∧
    ¬ abs ((⟨0, 0, 0⟩ : Vector3f F).norm sqrt - 1) < EPSILON := by
  constructor
  · rw [detectSphereBox_on_surface sqrt EPSILON _ ⟨⟨1, 0, 0⟩, r⟩
      (axisAlignedBox ⟨1, 1, 1⟩) rfl rfl hs.sqrt_zero hE hr]
    · simp only [axisAlignedBox, Affine3f.identity_apply, hrE, if_true]
      rfl
    · simp only [axisAlignedBox, Affine3f.identity_apply]
      exact AABox.closestPointOnSurface_face_x ⟨1, 1, 1⟩ 0 0 zero_le_one
        (by simp) (by simp)
  · have h0 : (⟨0, 0, 0⟩ : Vector3f F).norm sqrt = 0 := by
      simp [Vector3f.norm, Vector3f.squaredNorm, Vector3f.dot, hs.sqrt_zero]
    rw [h0]
    simpa using hE1

/-- Witness of C8: radius 1/1000 and EPSILON = 1/1000 in exact real arithmetic. -/
theorem detectSphereBox_zero_normal_witness :
    detectSphereBox Real.sqrt (1 / 1000)
        (sphereBoxPair ⟨⟨1, 0, 0⟩, 1 / 1000⟩ (axisAlignedBox ⟨1, 1, 1⟩)) =
      Except.ok (true,
        { sphereBoxPair ⟨⟨1, 0, 0⟩, 1 / 1000⟩ (axisAlignedBox ⟨1, 1, 1⟩) with
          m_collisionPoint1 := ⟨1, 0, 0⟩
          m_collisionPoint2 := ⟨1, 0, 0⟩
          m_collisionNormal := ⟨0, 0, 0⟩
          m_interpenetrationDepth := 1 / 1000 }) :=
  (detectSphereBox_zero_normal Real.sqrt (1 / 1000) (1 / 1000) isSqrt_real (by norm_num)
    (by norm_num) (by norm_num) le_rfl).1

theorem checkDepth_ok (r : Bool × Collision F) : checkDepth r = Except.ok r := by
  simp [checkDepth, isnan]

theorem bind_checkDepth (r : Except Fault (Bool × Collision F)) : r.bind checkDepth = r := by
  cases r with
  | error e => rfl
  | ok v => exact checkDepth_ok v

/-- C9: whenever `detectSphereSphere` or `detectSphereBox` returns true the depth
it wrote is strictly positive, and for the types SPHERE_SPHERE, SPHERE_BOX and
BOX_BOX the assertion at the end of `detect` holds: `detect` ends exactly as the
routine it dispatches to. -/
theorem interpenetrationDepth_pos (sqrt : F → F) (EPSILON FLT_MAX : F) (uninit : Vector3f F)
    (c : Collision F) :
    (∀ st, detectSphereSphere sqrt EPSILON c = Except.ok (true, st) →
      0 < st.m_interpenetrationDepth) ∧
    (∀ st, detectSphereBox sqrt EPSILON c = Except.ok (true, st) →
      0 < st.m_interpenetrationDepth) ∧
    (c.m_type = CollisionType.SPHERE_SPHERE →
      detect sqrt EPSILON FLT_MAX uninit c = detectSphereSphere sqrt EPSILON c) ∧
    (c.m_type = CollisionType.SPHERE_BOX →
      detect sqrt EPSILON FLT_MAX uninit c = detectSphereBox sqrt EPSILON c) ∧
    (c.m_type = CollisionType.BOX_BOX →
      detect sqrt EPSILON FLT_MAX uninit c = detectBoxBox sqrt EPSILON FLT_MAX uninit c) := by
  refine ⟨?_, ?_, ?_, ?_, ?_⟩
  · intro st h
    unfold detectSphereSphere at h
    split at h
    · dsimp only at h
      split_ifs at h with hlt ha
      · simp only [Except.ok.injEq, Prod.mk.injEq, true_and] at h
        subst h
        exact sub_pos.mpr hlt
      · simp at h
    · simp at h
  · intro st h
    unfold detectSphereBox at h
    split at h
    · dsimp only at h
      split_ifs at h with hlt ha hb
      · simp only [Except.ok.injEq, Prod.mk.injEq, true_and] at h
        subst h
        exact sub_pos.mpr hlt
      · simp at h
    · simp at h
  · intro ht
    simp only [detect, ht, bind_checkDepth]
  · intro ht
    simp only [detect, ht, bind_checkDepth]
  · intro ht
    simp only [detect, ht, bind_checkDepth]

/-- Witness of C9: the spec's concrete sphere pair returns true with depth 1/2. -/
theorem interpenetrationDepth_pos_witness :
    ∃ st, detectSphereSphere Real.sqrt (1 / 1000)
        (spherePair ⟨⟨0, 0, 0⟩, 1⟩ ⟨⟨3 / 2, 0, 0⟩, 1⟩) = Except.ok (true, st) ∧
      0 < st.m_interpenetrationDepth ∧
      detect Real.sqrt (1 / 1000) 1000000 Vector3f.zero
        (spherePair ⟨⟨0, 0, 0⟩, 1⟩ ⟨⟨3 / 2, 0, 0⟩, 1⟩) = Except.ok (true, st) :=
  ⟨_, detectSphereSphere_concrete_aux,
    (interpenetrationDepth_pos Real.sqrt (1 / 1000) 1000000 Vector3f.zero
      (spherePair ⟨⟨0, 0, 0⟩, 1⟩ ⟨⟨3 / 2, 0, 0⟩, 1⟩)).1 _ detectSphereSphere_concrete_aux,
    ((interpenetrationDepth_pos Real.sqrt (1 / 1000) 1000000 Vector3f.zero
      (spherePair ⟨⟨0, 0, 0⟩, 1⟩ ⟨⟨3 / 2, 0, 0⟩, 1⟩)).2.2.1 rfl).trans
      detectSphereSphere_concrete_aux⟩

end gp.engine.Collision

/-! ## The classifier on other kinds, the box axes -/

namespace gp.engine.Collision

variable {F : Type} [LinearOrderedField F]

/-- Counterexample to C15: with an object that is neither a Sphere nor a Box,
`getType` returns a CollisionType: SPHERE_BOX next to a Sphere, BOX_BOX next to a
Box or another such object. -/
theorem getType_other_returns :
    getType (Object.other (⟨0, 0, 0⟩ : Vector3f ℚ)) (Object.sphere unitSphere) =
      CollisionType.SPHERE_BOX ∧
    getType (Object.box unitBox) (Object.other (⟨0, 0, 0⟩ : Vector3f ℚ)) =
      CollisionType.BOX_BOX ∧
    getType (Object.other (⟨0, 0, 0⟩ : Vector3f ℚ)) (Object.other (⟨1, 0, 0⟩ : Vector3f ℚ)) =
      CollisionType.BOX_BOX :=
  ⟨rfl, rfl, rfl⟩

/-- C15 as amended: `getType` has no failure case; an object that is neither a
Sphere nor a Box is classified like a Box: the pair is SPHERE_BOX when the other
object is a Sphere and BOX_BOX otherwise. -/
theorem getType_unknown_kind {F : Type} (p : Vector3f F) (o : Object F) :
    getType (Object.other p) o =
      (if o.isSphere then CollisionType.SPHERE_BOX else CollisionType.BOX_BOX) ∧
    getType o (Object.other p) =
      (if o.isSphere then CollisionType.SPHERE_BOX else CollisionType.BOX_BOX) := by
  cases o <;> simp [getType, Object.isSphere]

theorem normalized_unit_x {sqrt : F → F} (hs : IsSqrt sqrt) :
    Vector3f.normalized sqrt (⟨1, 0, 0⟩ : Vector3f F) = ⟨1, 0, 0⟩ := by
  simp [Vector3f.normalized, Vector3f.squaredNorm, Vector3f.dot, Vector3f.divScalar,
    hs.sqrt_one]

theorem normalized_unit_y {sqrt : F → F} (hs : IsSqrt sqrt) :
    Vector3f.normalized sqrt (⟨0, 1, 0⟩ : Vector3f F) = ⟨0, 1, 0⟩ := by
  simp [Vector3f.normalized, Vector3f.squaredNorm, Vector3f.dot, Vector3f.divScalar,
    hs.sqrt_one]

theorem normalized_unit_z {sqrt : F → F} (hs : IsSqrt sqrt) :
    Vector3f.normalized sqrt (⟨0, 0, 1⟩ : Vector3f F) = ⟨0, 0, 1⟩ := by
  simp [Vector3f.normalized, Vector3f.squaredNorm, Vector3f.dot, Vector3f.divScalar,
    hs.sqrt_one]

/-- Each face axis is the column of the linear part plus the translation. -/
theorem boxAxis_eq {sqrt : F → F} (hs : IsSqrt sqrt) (b : Box F) :
    boxAxis sqrt b 0 = b.modelMatrix.linear.col0.add b.modelMatrix.translation ∧
    boxAxis sqrt b 1 = b.modelMatrix.linear.col1.add b.modelMatrix.translation ∧
    boxAxis sqrt b 2 = b.modelMatrix.linear.col2.add b.modelMatrix.translation := by
  refine ⟨?_, ?_, ?_⟩
  · show b.modelMatrix.apply (Vector3f.normalized sqrt ⟨1, 0, 0⟩) = _
    rw [normalized_unit_x hs]
    simp [Affine3f.apply, Matrix3f.mulVec, Matrix3f.col0, Vector3f.dot]
  · show b.modelMatrix.apply (Vector3f.normalized sqrt ⟨0, 1, 0⟩) = _
    rw [normalized_unit_y hs]
    simp [Affine3f.apply, Matrix3f.mulVec, Matrix3f.col1, Vector3f.dot]
  · show b.modelMatrix.apply (Vector3f.normalized sqrt ⟨0, 0, 1⟩) = _
    rw [normalized_unit_z hs]
    simp [Affine3f.apply, Matrix3f.mulVec, Matrix3f.col2, Vector3f.dot]

/-- C16 at the failing inputs: for an unrotated box whose centre is at `t`, the
face axes that `detectBoxBox` computes are `e_i + t`, not the basis vectors `e_i`;
with `t = (1,0,0)` the first axis is `(2,0,0)`, of length 2, and differs from the
first axis `(1,0,0)` of the same box placed at the origin. -/
theorem boxAxis_translated (sqrt : F → F) (hs : IsSqrt sqrt) (t h : Vector3f F) :
    boxAxis sqrt (translatedBox t h) 0 = (⟨1, 0, 0⟩ : Vector3f F).add t ∧
    boxAxis sqrt (translatedBox t h) 1 = (⟨0, 1, 0⟩ : Vector3f F).add t ∧
    boxAxis sqrt (translatedBox t h) 2 = (⟨0, 0, 1⟩ : Vector3f F).add t ∧
    boxAxis sqrt (translatedBox ⟨1, 0, 0⟩ h) 0 = ⟨2, 0, 0⟩ ∧
    (boxAxis sqrt (translatedBox ⟨1, 0, 0⟩ h) 0).norm sqrt = 2 ∧
    boxAxis sqrt (translatedBox ⟨0, 0, 0⟩ h) 0 = ⟨1, 0, 0⟩ := by
  obtain ⟨h0, h1, h2⟩ := boxAxis_eq hs (translatedBox t h)
  obtain ⟨h0', -, -⟩ := boxAxis_eq hs (translatedBox (⟨1, 0, 0⟩ : Vector3f F) h)
  obtain ⟨h0'', -, -⟩ := boxAxis_eq hs (translatedBox (⟨0, 0, 0⟩ : Vector3f F) h)
  have e2 : boxAxis sqrt (translatedBox ⟨1, 0, 0⟩ h) 0 = (⟨2, 0, 0⟩ : Vector3f F) := by
    rw [h0']
    ext <;> simp [translatedBox, Matrix3f.identity, Matrix3f.col0, Vector3f.add]
    norm_num
  refine ⟨?_, ?_, ?_, e2, ?_, ?_⟩
  · rw [h0]; rfl
  · rw [h1]; rfl
  · rw [h2]; rfl
  · rw [e2]
    exact Vector3f.norm_along_x hs (by norm_num)
  · rw [h0'']
    ext <;> simp [translatedBox, Matrix3f.identity, Matrix3f.col0, Vector3f.add]

/-- Witness of C16: the first face axis of the unit cube centred at (1,0,0) in
exact real arithmetic. -/
theorem boxAxis_translated_witness :
    boxAxis Real.sqrt (translatedBox (⟨1, 0, 0⟩ : Vector3f ℝ) ⟨1, 1, 1⟩) 0 = ⟨2, 0, 0⟩ ∧
    (boxAxis Real.sqrt (translatedBox (⟨1, 0, 0⟩ : Vector3f ℝ) ⟨1, 1, 1⟩) 0).norm Real.sqrt = 2 :=
  have h := boxAxis_translated Real.sqrt isSqrt_real (⟨1, 0, 0⟩ : Vector3f ℝ) ⟨1, 1, 1⟩
  ⟨h.2.2.2.1, h.2.2.2.2.1⟩

end gp.engine.Collision

/-! ## Box against box -/

namespace gp.engine.Collision

variable {F : Type} [LinearOrderedField F]

theorem option_map_bind {α β : Type} (proj : α → β) (f : α → Option α) (g : β → Option β)
    (hfg : ∀ a, (f a).map proj = g (proj a)) (x : Option α) :
    (x.bind f).map proj = (x.map proj).bind g := by
  cases x with
  | none => rfl
  | some a => exact hfg a

theorem testFaceAxis_best (EPSILON : F) (bp : BoxProjection F) (axis : Vector3f F)
    (s : AxisSearch F) :
    (testFaceAxis EPSILON bp axis s).map AxisSearch.best = axisStep EPSILON bp s.best axis := by
  unfold testFaceAxis axisStep AxisSearch.best
  dsimp only
  split_ifs <;> rfl

theorem testEdgeAxis_best (sqrt : F → F) (EPSILON : F) (bp : BoxProjection F)
    (a1 a2 : Vector3f F) (s : AxisSearch F) :
    (testEdgeAxis sqrt EPSILON bp a1 a2 s).map AxisSearch.best =
      axisStep EPSILON bp s.best ((a1.cross a2).normalized sqrt) := by
  unfold testEdgeAxis axisStep AxisSearch.best
  dsimp only
  split_ifs <;> rfl

theorem scanAxes_nil (EPSILON : F) (bp : BoxProjection F) (s : F × Vector3f F) :
    scanAxes EPSILON bp [] s = some s := rfl

theorem scanAxes_cons (EPSILON : F) (bp : BoxProjection F) (axis : Vector3f F)
    (axes : List (Vector3f F)) (s : F × Vector3f F) :
    scanAxes EPSILON bp (axis :: axes) s =
      (axisStep EPSILON bp s axis).bind (scanAxes EPSILON bp axes) := by
  unfold scanAxes
  rw [List.foldlM_cons]
  rfl

theorem scanAxes_append (EPSILON : F) (bp : BoxProjection F) (l1 l2 : List (Vector3f F))
    (s : F × Vector3f F) :
    scanAxes EPSILON bp (l1 ++ l2) s =
      (scanAxes EPSILON bp l1 s).bind (scanAxes EPSILON bp l2) := by
  unfold scanAxes
  rw [List.foldlM_append]
  rfl

theorem foldlM_map_option {α β ι : Type} (proj : α → β) (f : α → ι → Option α)
    (g : β → ι → Option β) (hfg : ∀ a i, (f a i).map proj = g (proj a) i) (l : List ι) (a : α) :
    (l.foldlM f a).map proj = l.foldlM g (proj a) := by
  induction l generalizing a with
  | nil => rfl
  | cons i l ih =>
    rw [List.foldlM_cons, List.foldlM_cons]
    show ((f a i).bind (l.foldlM f)).map proj = (g (proj a) i).bind (l.foldlM g)
    rw [option_map_bind proj (l.foldlM f) (l.foldlM g) ih, hfg]

/-- The face loop seen on `(minOverlap, minOverlapAxis)` is the scan of the six
face axes. -/
theorem faceLoop_best (EPSILON : F) (bp : BoxProjection F) (a1 a2 : Fin 3 → Vector3f F)
    (s : AxisSearch F) :
    (faceLoop EPSILON bp a1 a2 s).map AxisSearch.best =
      scanAxes EPSILON bp [a1 0, a2 0, a1 1, a2 1, a1 2, a2 2] s.best := by
  have h3 : List.finRange 3 = [0, 1, 2] := rfl
  unfold faceLoop
  rw [foldlM_map_option AxisSearch.best _
    (fun r i => (axisStep EPSILON bp r (a1 i)).bind (fun r => axisStep EPSILON bp r (a2 i))),
    h3]
  · simp only [List.foldlM_cons, List.foldlM_nil, scanAxes_cons, scanAxes_nil]
    simp [Option.bind_assoc]
  · intro t i
    rw [option_map_bind AxisSearch.best _ (fun r => axisStep EPSILON bp r (a2 i))
      (fun a => testFaceAxis_best EPSILON bp (a2 i) a), testFaceAxis_best]

/-- The cross-product loops seen on `(minOverlap, minOverlapAxis)` are the scan of
the nine normalized cross products. -/
theorem edgeLoop_best (sqrt : F → F) (EPSILON : F) (bp : BoxProjection F)
    (a1 a2 : Fin 3 → Vector3f F) (s : AxisSearch F) :
    (edgeLoop sqrt EPSILON bp a1 a2 s).map AxisSearch.best =
      scanAxes EPSILON bp
        [((a1 0).cross (a2 0)).normalized sqrt, ((a1 0).cross (a2 1)).normalized sqrt,
          ((a1 0).cross (a2 2)).normalized sqrt, ((a1 1).cross (a2 0)).normalized sqrt,
          ((a1 1).cross (a2 1)).normalized sqrt, ((a1 1).cross (a2 2)).normalized sqrt,
          ((a1 2).cross (a2 0)).normalized sqrt, ((a1 2).cross (a2 1)).normalized sqrt,
          ((a1 2).cross (a2 2)).normalized sqrt] s.best := by
  have h3 : List.finRange 3 = [0, 1, 2] := rfl
  unfold edgeLoop
  rw [foldlM_map_option AxisSearch.best _
    (fun r i => (List.finRange 3).foldlM
      (fun r k => axisStep EPSILON bp r (((a1 i).cross (a2 k)).normalized sqrt)) r), h3]
  · simp only [List.foldlM_cons, List.foldlM_nil, scanAxes_cons, scanAxes_nil]
    simp [Option.bind_assoc]
  · intro t i
    exact foldlM_map_option AxisSearch.best _
      (fun r k => axisStep EPSILON bp r (((a1 i).cross (a2 k)).normalized sqrt))
      (fun a k => testEdgeAxis_best sqrt EPSILON bp (a1 i) (a2 k) a) _ t

/-- The routine on two boxes: the scan of the fifteen axes decides between leaving
the record as it is and writing the normal; the return value is false either way. -/
theorem detectBoxBox_boxes (sqrt : F → F) (EPSILON FLT_MAX : F) (uninit : Vector3f F)
    (c : Collision F) (myBox1 myBox2 : Box F) (h1 : c.m_object1 = Object.box myBox1)
    (h2 : c.m_object2 = Object.box myBox2) :
    detectBoxBox sqrt EPSILON FLT_MAX uninit c =
      match scanAxes EPSILON (boxProjection sqrt myBox1 myBox2)
          (testedAxes sqrt (boxAxis sqrt myBox1) (boxAxis sqrt myBox2)) (FLT_MAX, uninit) with
      | none => Except.ok (false, c)
      | some r => Except.ok (false, { c with m_collisionNormal := r.2 }) := by
  have hsplit : testedAxes sqrt (boxAxis sqrt myBox1) (boxAxis sqrt myBox2) =
      [boxAxis sqrt myBox1 0, boxAxis sqrt myBox2 0, boxAxis sqrt myBox1 1,
        boxAxis sqrt myBox2 1, boxAxis sqrt myBox1 2, boxAxis sqrt myBox2 2] ++
      [((boxAxis sqrt myBox1 0).cross (boxAxis sqrt myBox2 0)).normalized sqrt,
        ((boxAxis sqrt myBox1 0).cross (boxAxis sqrt myBox2 1)).normalized sqrt,
        ((boxAxis sqrt myBox1 0).cross (boxAxis sqrt myBox2 2)).normalized sqrt,
        ((boxAxis sqrt myBox1 1).cross (boxAxis sqrt myBox2 0)).normalized sqrt,
        ((boxAxis sqrt myBox1 1).cross (boxAxis sqrt myBox2 1)).normalized sqrt,
        ((boxAxis sqrt myBox1 1).cross (boxAxis sqrt myBox2 2)).normalized sqrt,
        ((boxAxis sqrt myBox1 2).cross (boxAxis sqrt myBox2 0)).normalized sqrt,
        ((boxAxis sqrt myBox1 2).cross (boxAxis sqrt myBox2 1)).normalized sqrt,
        ((boxAxis sqrt myBox1 2).cross (boxAxis sqrt myBox2 2)).normalized sqrt] := rfl
  have hstart : (FLT_MAX, uninit) =
      (AxisSearch.mk FLT_MAX uninit false uninit uninit).best := rfl
  obtain ⟨ty, o1, o2, k, n, p1, p2, d⟩ := c
  simp only at h1 h2
  subst h1 h2
  rw [hsplit, scanAxes_append, hstart, ← faceLoop_best]
  simp only [detectBoxBox, boxProjection]
  generalize faceLoop EPSILON _ _ _ _ = x
  cases x with
  | none => rfl
  | some s =>
    simp only [Option.map_some', Option.some_bind, ← edgeLoop_best]
    generalize edgeLoop sqrt EPSILON _ _ _ _ = y
    cases y <;> rfl

/-- The scan stops exactly when some axis of the list has an overlap below EPSILON,
provided the running minimum starts at EPSILON or above. -/
theorem scanAxes_none_iff (EPSILON : F) (bp : BoxProjection F) (axes : List (Vector3f F))
    (s : F × Vector3f F) (hE : EPSILON ≤ s.1) :
    scanAxes EPSILON bp axes s = none ↔ ∃ ax ∈ axes, bp.overlapOnAxis ax < EPSILON := by
  induction axes generalizing s with
  | nil => simp [scanAxes_nil]
  | cons a l ih =>
    rw [scanAxes_cons]
    unfold axisStep
    by_cases h1 : bp.overlapOnAxis a < s.1
    · by_cases h2 : bp.overlapOnAxis a < EPSILON
      · simp only [h1, h2, if_true, Option.none_bind, true_iff]
        exact ⟨a, List.mem_cons_self a l, h2⟩
      · simp only [h1, h2, if_true, if_false, Option.some_bind]
        rw [ih (bp.overlapOnAxis a, a) (not_lt.mp h2)]
        simp [h2]
    · simp only [h1, if_false, Option.some_bind]
      rw [ih s hE]
      have h2 : ¬ bp.overlapOnAxis a < EPSILON := fun h => h1 (lt_of_lt_of_le h hE)
      simp [h2]

theorem overlapOnAxis_zero (bp : BoxProjection F) : bp.overlapOnAxis Vector3f.zero = 0 := by
  simp [BoxProjection.overlapOnAxis, projectedHalfSize, Vector3f.zero_dot, Vector3f.dot_zero]

theorem mem_testedAxes_cross (sqrt : F → F) (a1 a2 : Fin 3 → Vector3f F) (i k : Fin 3) :
    ((a1 i).cross (a2 k)).normalized sqrt ∈ testedAxes sqrt a1 a2 := by
  fin_cases i <;> fin_cases k <;> simp [testedAxes]

/-- Two boxes with a parallel pair of axes: the normalized cross product is the
zero vector, its overlap 0 is below EPSILON, the scan of the axes stops and the
routine returns without writing the record. -/
theorem detectBoxBox_parallel_aux (sqrt : F → F) (EPSILON FLT_MAX : F) (uninit : Vector3f F)
    (c : Collision F) (myBox1 myBox2 : Box F) (h1 : c.m_object1 = Object.box myBox1)
    (h2 : c.m_object2 = Object.box myBox2) (hE : 0 < EPSILON) (hM : EPSILON ≤ FLT_MAX)
    (i k : Fin 3)
    (hpar : (boxAxis sqrt myBox1 i).cross (boxAxis sqrt myBox2 k) = Vector3f.zero) :
    scanAxes EPSILON (boxProjection sqrt myBox1 myBox2)
      (testedAxes sqrt (boxAxis sqrt myBox1) (boxAxis sqrt myBox2)) (FLT_MAX, uninit) = none ∧
    detectBoxBox sqrt EPSILON FLT_MAX uninit c = Except.ok (false, c) := by
  have hnone : scanAxes EPSILON (boxProjection sqrt myBox1 myBox2)
      (testedAxes sqrt (boxAxis sqrt myBox1) (boxAxis sqrt myBox2)) (FLT_MAX, uninit) = none := by
    rw [scanAxes_none_iff _ _ _ _ hM]
    refine ⟨_, mem_testedAxes_cross sqrt _ _ i k, ?_⟩
    rw [hpar, Vector3f.normalized_zero, overlapOnAxis_zero]
    exact hE
  refine ⟨hnone, ?_⟩
  rw [detectBoxBox_boxes sqrt EPSILON FLT_MAX uninit c myBox1 myBox2 h1 h2, hnone]

/-- On two boxes the routine returns false, whatever the scan of the axes gives. -/
theorem detectBoxBox_false_aux (sqrt : F → F) (EPSILON FLT_MAX : F) (uninit : Vector3f F)
    (c : Collision F) (myBox1 myBox2 : Box F) (h1 : c.m_object1 = Object.box myBox1)
    (h2 : c.m_object2 = Object.box myBox2) :
    ∃ st, detectBoxBox sqrt EPSILON FLT_MAX uninit c = Except.ok (false, st) := by
  rw [detectBoxBox_boxes sqrt EPSILON FLT_MAX uninit c myBox1 myBox2 h1 h2]
  cases scanAxes EPSILON (boxProjection sqrt myBox1 myBox2)
      (testedAxes sqrt (boxAxis sqrt myBox1) (boxAxis sqrt myBox2)) (FLT_MAX, uninit) with
  | none => exact ⟨c, rfl⟩
  | some r => exact ⟨_, rfl⟩

theorem detect_boxBox (sqrt : F → F) (EPSILON FLT_MAX : F) (uninit : Vector3f F)
    (c : Collision F) (ht : c.m_type = CollisionType.BOX_BOX) :
    detect sqrt EPSILON FLT_MAX uninit c = detectBoxBox sqrt EPSILON FLT_MAX uninit c := by
  simp only [detect, ht, bind_checkDepth]

/-- The first face axes of the unit cube at the origin and of the unit cube
centred at (1,0,0), as the routine computes them, are parallel. -/
theorem cubes_parallel_aux {sqrt : F → F} (hs : IsSqrt sqrt) :
    (boxAxis sqrt (translatedBox (⟨0, 0, 0⟩ : Vector3f F) ⟨1, 1, 1⟩) 0).cross
      (boxAxis sqrt (translatedBox (⟨1, 0, 0⟩ : Vector3f F) ⟨1, 1, 1⟩) 0) = Vector3f.zero := by
  rw [(boxAxis_eq hs _).1, (boxAxis_eq hs _).1]
  ext <;> simp [translatedBox, Matrix3f.identity, Matrix3f.col0, Vector3f.add, Vector3f.cross,
    Vector3f.zero]

/-- C13 at the failing input: for the unit cubes (half-extent 1) centred at
(0,0,0) and (1,0,0) the scan of the axes stops at an axis test (an early exit is
taken) and the routine, and `detect`, return false: no overlap is reported. -/
theorem detectBoxBox_overlapping_cubes (sqrt : F → F) (EPSILON FLT_MAX : F)
    (uninit : Vector3f F) (hs : IsSqrt sqrt) (hE : 0 < EPSILON) (hM : EPSILON ≤ FLT_MAX) :
    scanAxes EPSILON
      (boxProjection sqrt (translatedBox ⟨0, 0, 0⟩ ⟨1, 1, 1⟩) (translatedBox ⟨1, 0, 0⟩ ⟨1, 1, 1⟩))
      (testedAxes sqrt (boxAxis sqrt (translatedBox ⟨0, 0, 0⟩ ⟨1, 1, 1⟩))
        (boxAxis sqrt (translatedBox ⟨1, 0, 0⟩ ⟨1, 1, 1⟩))) (FLT_MAX, uninit) = none ∧
    detectBoxBox sqrt EPSILON FLT_MAX uninit
      (boxBoxPair (translatedBox ⟨0, 0, 0⟩ ⟨1, 1, 1⟩) (translatedBox ⟨1, 0, 0⟩ ⟨1, 1, 1⟩)) =
      Except.ok (false,
        boxBoxPair (translatedBox ⟨0, 0, 0⟩ ⟨1, 1, 1⟩) (translatedBox ⟨1, 0, 0⟩ ⟨1, 1, 1⟩)) ∧
    detect sqrt EPSILON FLT_MAX uninit
      (boxBoxPair (translatedBox ⟨0, 0, 0⟩ ⟨1, 1, 1⟩) (translatedBox ⟨1, 0, 0⟩ ⟨1, 1, 1⟩)) =
      Except.ok (false,
        boxBoxPair (translatedBox ⟨0, 0, 0⟩ ⟨1, 1, 1⟩) (translatedBox ⟨1, 0, 0⟩ ⟨1, 1, 1⟩)) := by
  obtain ⟨hscan, hdet⟩ := detectBoxBox_parallel_aux sqrt EPSILON FLT_MAX uninit
    (boxBoxPair (translatedBox ⟨0, 0, 0⟩ ⟨1, 1, 1⟩) (translatedBox ⟨1, 0, 0⟩ ⟨1, 1, 1⟩))
    _ _ rfl rfl hE hM 0 0 (cubes_parallel_aux hs)
  exact ⟨hscan, hdet, (detect_boxBox sqrt EPSILON FLT_MAX uninit _ rfl).trans hdet⟩

/-- Witness of C13: the two cubes in exact real arithmetic, EPSILON = 1/1000. -/
theorem detectBoxBox_overlapping_cubes_witness :
    detect Real.sqrt (1 / 1000) 1000000 Vector3f.zero
      (boxBoxPair (translatedBox (⟨0, 0, 0⟩ : Vector3f ℝ) ⟨1, 1, 1⟩)
        (translatedBox ⟨1, 0, 0⟩ ⟨1, 1, 1⟩)) =
      Except.ok (false,
        boxBoxPair (translatedBox ⟨0, 0, 0⟩ ⟨1, 1, 1⟩) (translatedBox ⟨1, 0, 0⟩ ⟨1, 1, 1⟩)) :=
  (detectBoxBox_overlapping_cubes Real.sqrt (1 / 1000) 1000000 Vector3f.zero isSqrt_real
    (by norm_num) (by norm_num)).2.2

/-- C14: for every pair of boxes `detectBoxBox` returns false, and so does
`detect` on a BOX_BOX record. -/
theorem detectBoxBox_returns_false (sqrt : F → F) (EPSILON FLT_MAX : F) (uninit : Vector3f F)
    (c : Collision F) (myBox1 myBox2 : Box F) (h1 : c.m_object1 = Object.box myBox1)
    (h2 : c.m_object2 = Object.box myBox2) :
    ∃ st, detectBoxBox sqrt EPSILON FLT_MAX uninit c = Except.ok (false, st) ∧
      (c.m_type = CollisionType.BOX_BOX →
        detect sqrt EPSILON FLT_MAX uninit c = Except.ok (false, st)) := by
  obtain ⟨st, hst⟩ := detectBoxBox_false_aux sqrt EPSILON FLT_MAX uninit c myBox1 myBox2 h1 h2
  exact ⟨st, hst, fun ht => (detect_boxBox sqrt EPSILON FLT_MAX uninit c ht).trans hst⟩

/-- Witness of C14: a cube of half-extent 1 inside a cube of half-extent 2. -/
theorem detectBoxBox_returns_false_witness :
    ∃ st, detectBoxBox Real.sqrt (1 / 1000) 1000000 Vector3f.zero
      (boxBoxPair (axisAlignedBox (⟨1, 1, 1⟩ : Vector3f ℝ)) (axisAlignedBox ⟨2, 2, 2⟩)) =
        Except.ok (false, st) ∧
      detect Real.sqrt (1 / 1000) 1000000 Vector3f.zero
        (boxBoxPair (axisAlignedBox (⟨1, 1, 1⟩ : Vector3f ℝ)) (axisAlignedBox ⟨2, 2, 2⟩)) =
        Except.ok (false, st) := by
  obtain ⟨st, h, hd⟩ := detectBoxBox_returns_false Real.sqrt (1 / 1000) 1000000 Vector3f.zero
    (boxBoxPair (axisAlignedBox (⟨1, 1, 1⟩ : Vector3f ℝ)) (axisAlignedBox ⟨2, 2, 2⟩)) _ _ rfl rfl
  exact ⟨st, h, hd rfl⟩

/-- C17 at the failing inputs: when an axis of box1 is parallel to an axis of box2
the normalized cross product is the zero vector; its overlap, 0, is below EPSILON,
so this axis makes the routine return at an axis test, the record unwritten,
whatever the overlaps of the other axes. -/
theorem detectBoxBox_degenerate_axis_exits (sqrt : F → F) (EPSILON FLT_MAX : F)
    (uninit : Vector3f F) (c : Collision F) (myBox1 myBox2 : Box F)
    (h1 : c.m_object1 = Object.box myBox1) (h2 : c.m_object2 = Object.box myBox2)
    (hE : 0 < EPSILON) (hM : EPSILON ≤ FLT_MAX) (i k : Fin 3)
    (hpar : (boxAxis sqrt myBox1 i).cross (boxAxis sqrt myBox2 k) = Vector3f.zero) :
    ((boxAxis sqrt myBox1 i).cross (boxAxis sqrt myBox2 k)).normalized sqrt = Vector3f.zero ∧
    (boxProjection sqrt myBox1 myBox2).overlapOnAxis
      (((boxAxis sqrt myBox1 i).cross (boxAxis sqrt myBox2 k)).normalized sqrt) < EPSILON ∧
    scanAxes EPSILON (boxProjection sqrt myBox1 myBox2)
      (testedAxes sqrt (boxAxis sqrt myBox1) (boxAxis sqrt myBox2)) (FLT_MAX, uninit) = none ∧
    detectBoxBox sqrt EPSILON FLT_MAX uninit c = Except.ok (false, c) := by
  have hz : ((boxAxis sqrt myBox1 i).cross (boxAxis sqrt myBox2 k)).normalized sqrt =
      Vector3f.zero := by rw [hpar, Vector3f.normalized_zero]
  refine ⟨hz, ?_, detectBoxBox_parallel_aux sqrt EPSILON FLT_MAX uninit c myBox1 myBox2 h1 h2 hE hM
    i k hpar⟩
  rw [hz, overlapOnAxis_zero]
  exact hE

theorem boxAxis_axisAligned {sqrt : F → F} (hs : IsSqrt sqrt) (h : Vector3f F) :
    boxAxis sqrt (axisAlignedBox h) 0 = ⟨1, 0, 0⟩ ∧
    boxAxis sqrt (axisAlignedBox h) 1 = ⟨0, 1, 0⟩ ∧
    boxAxis sqrt (axisAlignedBox h) 2 = ⟨0, 0, 1⟩ := by
  obtain ⟨h0, h1, h2⟩ := boxAxis_eq hs (axisAlignedBox h)
  rw [h0, h1, h2]
  refine ⟨?_, ?_, ?_⟩ <;>
    (ext <;> simp [axisAlignedBox, Affine3f.identity, Matrix3f.identity, Matrix3f.col0,
      Matrix3f.col1, Matrix3f.col2, Vector3f.add, Vector3f.zero])

theorem squaredNorm_normalized {sqrt : F → F} (hs : IsSqrt sqrt) {a : Vector3f F}
    (h : 0 < a.squaredNorm) : (a.normalized sqrt).squaredNorm = 1 := by
  have hz : sqrt a.squaredNorm * sqrt a.squaredNorm = a.squaredNorm := (hs _ h.le).2
  unfold Vector3f.normalized
  simp only [h, if_true, Vector3f.squaredNorm_divScalar, hz]
  exact div_self h.ne.symm

/-- For the axis-aligned cubes of half-extents 1 and 2 at the origin, every tested
axis is either the zero vector or has overlap 3. -/
theorem axisAligned_overlaps_aux {sqrt : F → F} (hs : IsSqrt sqrt) :
    ∀ ax ∈ testedAxes sqrt (boxAxis sqrt (axisAlignedBox (⟨1, 1, 1⟩ : Vector3f F)))
      (boxAxis sqrt (axisAlignedBox (⟨2, 2, 2⟩ : Vector3f F))),
      ax = Vector3f.zero ∨
      (boxProjection sqrt (axisAlignedBox (⟨1, 1, 1⟩ : Vector3f F))
        (axisAlignedBox (⟨2, 2, 2⟩ : Vector3f F))).overlapOnAxis ax = 3 := by
  obtain ⟨h0, h1, h2⟩ := boxAxis_axisAligned hs (⟨1, 1, 1⟩ : Vector3f F)
  obtain ⟨g0, g1, g2⟩ := boxAxis_axisAligned hs (⟨2, 2, 2⟩ : Vector3f F)
  have hx := normalized_unit_x hs
  have hy := normalized_unit_y hs
  have hz := normalized_unit_z hs
  have hx' : Vector3f.normalized sqrt (⟨-1, 0, 0⟩ : Vector3f F) = ⟨-1, 0, 0⟩ := by
    simp [Vector3f.normalized, Vector3f.squaredNorm, Vector3f.dot, Vector3f.divScalar,
      hs.sqrt_one]
  have hy' : Vector3f.normalized sqrt (⟨0, -1, 0⟩ : Vector3f F) = ⟨0, -1, 0⟩ := by
    simp [Vector3f.normalized, Vector3f.squaredNorm, Vector3f.dot, Vector3f.divScalar,
      hs.sqrt_one]
  have hz' : Vector3f.normalized sqrt (⟨0, 0, -1⟩ : Vector3f F) = ⟨0, 0, -1⟩ := by
    simp [Vector3f.normalized, Vector3f.squaredNorm, Vector3f.dot, Vector3f.divScalar,
      hs.sqrt_one]
  have h00 : Vector3f.normalized sqrt (⟨0, 0, 0⟩ : Vector3f F) = ⟨0, 0, 0⟩ :=
    Vector3f.normalized_zero sqrt
  intro ax hax
  simp only [testedAxes, h0, h1, h2, g0, g1, g2, Vector3f.cross, mul_zero, zero_mul, mul_one,
    one_mul, sub_zero, zero_sub, sub_self, hx, hy, hz, hx', hy', hz', h00, List.mem_cons,
    List.mem_singleton, List.not_mem_nil, or_false] at hax
  rcases hax with h | h | h | h | h | h | h | h | h | h | h | h | h | h | h <;> subst h
  all_goals first
    | (left; rfl)
    | (right
       simp only [BoxProjection.overlapOnAxis, boxProjection, projectedHalfSize, h0, h1, h2,
         g0, g1, g2]
       simp [axisAlignedBox, Vector3f.dot, Vector3f.sub, Vector3f.zero]
       norm_num)

/-- Witness of C17: the axis-aligned cubes of half-extents 1 and 2 at the origin.
Every tested axis other than the zero vector has overlap 3, and the routine
returns at the degenerate axis with the record unwritten. -/
theorem detectBoxBox_degenerate_axis_exits_witness :
    (∀ ax ∈ testedAxes Real.sqrt (boxAxis Real.sqrt (axisAlignedBox (⟨1, 1, 1⟩ : Vector3f ℝ)))
      (boxAxis Real.sqrt (axisAlignedBox (⟨2, 2, 2⟩ : Vector3f ℝ))),
      ax = Vector3f.zero ∨
      (boxProjection Real.sqrt (axisAlignedBox (⟨1, 1, 1⟩ : Vector3f ℝ))
        (axisAlignedBox (⟨2, 2, 2⟩ : Vector3f ℝ))).overlapOnAxis ax = 3) ∧
    detectBoxBox Real.sqrt (1 / 1000) 1000000 Vector3f.zero
      (boxBoxPair (axisAlignedBox (⟨1, 1, 1⟩ : Vector3f ℝ)) (axisAlignedBox ⟨2, 2, 2⟩)) =
      Except.ok (false,
        boxBoxPair (axisAlignedBox (⟨1, 1, 1⟩ : Vector3f ℝ)) (axisAlignedBox ⟨2, 2, 2⟩)) := by
  refine ⟨axisAligned_overlaps_aux isSqrt_real, ?_⟩
  refine (detectBoxBox_degenerate_axis_exits Real.sqrt (1 / 1000) 1000000 Vector3f.zero
    (boxBoxPair (axisAlignedBox (⟨1, 1, 1⟩ : Vector3f ℝ)) (axisAlignedBox ⟨2, 2, 2⟩)) _ _ rfl rfl
    (by norm_num) (by norm_num) 0 0 ?_).2.2.2
  rw [(boxAxis_axisAligned isSqrt_real _).1, (boxAxis_axisAligned isSqrt_real _).1]
  ext <;> simp [Vector3f.cross, Vector3f.zero]

end gp.engine.Collision

/-! ## Sphere against box: the assertions -/

namespace gp

variable {F : Type} [LinearOrderedField F]

theorem Vector3f.dot_divScalar (a b : Vector3f F) (s : F) :
    a.dot (b.divScalar s) = a.dot b / s := by
  simp only [Vector3f.dot, Vector3f.divScalar]
  ring

theorem Vector3f.norm_nonneg {sqrt : F → F} (hs : IsSqrt sqrt) (a : Vector3f F) :
    0 ≤ a.norm sqrt :=
  (hs _ (Vector3f.squaredNorm_nonneg a)).1

theorem Affine3f.apply_sub_apply (m : Affine3f F) (a b : Vector3f F) :
    (m.apply a).sub (m.apply b) = m.linear.mulVec (a.sub b) := by
  ext <;> simp [Affine3f.apply, Matrix3f.mulVec, Vector3f.add, Vector3f.sub, Vector3f.dot] <;>
    ring

/-- With pairwise orthogonal columns, the scalar product of two images is the
sum of the coordinate products weighted by the squared column lengths. -/
theorem Matrix3f.dot_mulVec (m : Matrix3f F) (h : m.OrthogonalColumns) (u v : Vector3f F) :
    (m.mulVec u).dot (m.mulVec v) =
      m.col0.squaredNorm * (u.x * v.x) + m.col1.squaredNorm * (u.y * v.y) +
        m.col2.squaredNorm * (u.z * v.z) := by
  obtain ⟨h01, h02, h12⟩ := h
  simp only [Matrix3f.col0, Matrix3f.col1, Matrix3f.col2, Vector3f.dot] at h01 h02 h12
  simp only [Matrix3f.mulVec, Matrix3f.col0, Matrix3f.col1, Matrix3f.col2, Vector3f.dot,
    Vector3f.squaredNorm]
  linear_combination (u.x * v.y + u.y * v.x) * h01 + (u.x * v.z + u.z * v.x) * h02 +
    (u.y * v.z + u.z * v.y) * h12

end gp

namespace gp.engine

variable {F : Type} [LinearOrderedField F]

/-- A clamped coordinate lies between the query coordinate and either face. -/
theorem clamp_coord_nonneg (h v σ : F) (hh : 0 ≤ h) (hσ : σ = -1 ∨ σ = 1) :
    0 ≤ (σ * h - clamp v (-h) h) * (clamp v (-h) h - v) := by
  unfold clamp
  rcases le_total v h with h1 | h1
  · rw [min_eq_left h1]
    rcases le_total (-h) v with h2 | h2
    · rw [max_eq_right h2]
      simp
    · rw [max_eq_left h2]
      rcases hσ with rfl | rfl
      · simp
      · nlinarith
  · rw [min_eq_right h1, max_eq_right (by linarith)]
    rcases hσ with rfl | rfl
    · nlinarith
    · simp

/-- The face chosen for an interior coordinate lies beyond it, towards the face. -/
theorem faceCoord_coord_nonpos (h v σ : F) (hv : abs v < h) (hσ : σ = -1 ∨ σ = 1) :
    (σ * h - faceCoord v h) * (faceCoord v h - v) ≤ 0 := by
  obtain ⟨hv1, hv2⟩ := abs_lt.mp hv
  unfold faceCoord
  split_ifs with h0
  · rcases hσ with rfl | rfl
    · nlinarith
    · simp
  · rcases hσ with rfl | rfl
    · simp
    · nlinarith

end gp.engine

namespace gp.engine.Collision

variable {F : Type} [LinearOrderedField F]

theorem mem_cornerSigns {s : F × F × F} (h : s ∈ (cornerSigns : List (F × F × F))) :
    (s.1 = -1 ∨ s.1 = 1) ∧ (s.2.1 = -1 ∨ s.2.1 = 1) ∧ (s.2.2 = -1 ∨ s.2.2 = 1) := by
  simp only [cornerSigns, List.flatMap_cons, List.flatMap_nil, List.map_cons, List.map_nil,
    List.append_nil, List.cons_append, List.nil_append, List.mem_cons, List.mem_singleton,
    List.not_mem_nil, or_false] at h
  rcases h with h | h | h | h | h | h | h | h <;> subst h <;> simp

/-- The weighted sum that carries the sign of a corner's distance to the contact
plane. -/
theorem cornerDist_contact {sqrt : F → F} (c : Collision F) (mySphere : Sphere F)
    (myBox : Box F) (horth : myBox.modelMatrix.linear.OrthogonalColumns) (σ : F × F × F) :
    cornerDist myBox (sphereBoxContact sqrt c mySphere myBox) σ =
      (myBox.modelMatrix.linear.col0.squaredNorm *
          ((σ.1 * myBox.halfSize.x -
              ((AABox.mk myBox.halfSize).closestPointOnSurface
                (myBox.invModelMatrix.apply mySphere.position)).x) *
            (((AABox.mk myBox.halfSize).closestPointOnSurface
                (myBox.invModelMatrix.apply mySphere.position)).x -
              (myBox.invModelMatrix.apply mySphere.position).x)) +
        myBox.modelMatrix.linear.col1.squaredNorm *
          ((σ.2.1 * myBox.halfSize.y -
              ((AABox.mk myBox.halfSize).closestPointOnSurface
                (myBox.invModelMatrix.apply mySphere.position)).y) *
            (((AABox.mk myBox.halfSize).closestPointOnSurface
                (myBox.invModelMatrix.apply mySphere.position)).y -
              (myBox.invModelMatrix.apply mySphere.position).y)) +
        myBox.modelMatrix.linear.col2.squaredNorm *
          ((σ.2.2 * myBox.halfSize.z -
              ((AABox.mk myBox.halfSize).closestPointOnSurface
                (myBox.invModelMatrix.apply mySphere.position)).z) *
            (((AABox.mk myBox.halfSize).closestPointOnSurface
                (myBox.invModelMatrix.apply mySphere.position)).z -
              (myBox.invModelMatrix.apply mySphere.position).z))) /
        (sphereBoxNormal mySphere myBox).norm sqrt := by
  unfold cornerDist sphereBoxContact
  dsimp only
  rw [Affine3f.apply_sub_apply, Vector3f.normalized_eq_div_norm, Vector3f.dot_divScalar]
  unfold sphereBoxNormal
  rw [Matrix3f.dot_mulVec _ horth]
  simp only [Vector3f.sub]

/-- The sign of the weighted sum is the same for all eight corners. -/
theorem corner_sum_sign (h s : Vector3f F) (d0 d1 d2 : F) (hx : 0 ≤ h.x) (hy : 0 ≤ h.y)
    (hz : 0 ≤ h.z) (hd0 : 0 ≤ d0) (hd1 : 0 ≤ d1) (hd2 : 0 ≤ d2) :
    (∀ σ ∈ (cornerSigns : List (F × F × F)),
      0 ≤ d0 * ((σ.1 * h.x - ((AABox.mk h).closestPointOnSurface s).x) *
            (((AABox.mk h).closestPointOnSurface s).x - s.x)) +
          d1 * ((σ.2.1 * h.y - ((AABox.mk h).closestPointOnSurface s).y) *
            (((AABox.mk h).closestPointOnSurface s).y - s.y)) +
          d2 * ((σ.2.2 * h.z - ((AABox.mk h).closestPointOnSurface s).z) *
            (((AABox.mk h).closestPointOnSurface s).z - s.z))) ∨
    (∀ σ ∈ (cornerSigns : List (F × F × F)),
      d0 * ((σ.1 * h.x - ((AABox.mk h).closestPointOnSurface s).x) *
            (((AABox.mk h).closestPointOnSurface s).x - s.x)) +
          d1 * ((σ.2.1 * h.y - ((AABox.mk h).closestPointOnSurface s).y) *
            (((AABox.mk h).closestPointOnSurface s).y - s.y)) +
          d2 * ((σ.2.2 * h.z - ((AABox.mk h).closestPointOnSurface s).z) *
            (((AABox.mk h).closestPointOnSurface s).z - s.z)) ≤ 0) := by
  unfold AABox.closestPointOnSurface
  dsimp only
  by_cases hin : abs s.x < h.x ∧ abs s.y < h.y ∧ abs s.z < h.z
  · right
    intro σ hσ
    obtain ⟨h1, h2, h3⟩ := mem_cornerSigns hσ
    simp only [hin, and_self, if_true]
    split_ifs
    · have := faceCoord_coord_nonpos h.x s.x σ.1 hin.1 h1
      simp only [sub_self, mul_zero, add_zero]
      exact mul_nonpos_of_nonneg_of_nonpos hd0 this
    · have := faceCoord_coord_nonpos h.y s.y σ.2.1 hin.2.1 h2
      simp only [sub_self, mul_zero, add_zero, zero_add]
      exact mul_nonpos_of_nonneg_of_nonpos hd1 this
    · have := faceCoord_coord_nonpos h.z s.z σ.2.2 hin.2.2 h3
      simp only [sub_self, mul_zero, add_zero, zero_add]
      exact mul_nonpos_of_nonneg_of_nonpos hd2 this
  · left
    intro σ hσ
    obtain ⟨h1, h2, h3⟩ := mem_cornerSigns hσ
    simp only [hin, if_false]
    have e1 := mul_nonneg hd0 (clamp_coord_nonneg h.x s.x σ.1 hx h1)
    have e2 := mul_nonneg hd1 (clamp_coord_nonneg h.y s.y σ.2.1 hy h2)
    have e3 := mul_nonneg hd2 (clamp_coord_nonneg h.z s.z σ.2.2 hz h3)
    linarith

/-- In exact arithmetic: with orthogonal columns and non-negative half-extents the
record built by `detectSphereBox` passes the corner assertion of line 104. -/
theorem corners_one_side_aux {sqrt : F → F} (hs : IsSqrt sqrt) {EPSILON : F}
    (hE : 0 < EPSILON) (c : Collision F) (mySphere : Sphere F) (myBox : Box F)
    (horth : myBox.modelMatrix.linear.OrthogonalColumns) (hx : 0 ≤ myBox.halfSize.x)
    (hy : 0 ≤ myBox.halfSize.y) (hz : 0 ≤ myBox.halfSize.z) :
    pointsBelow EPSILON myBox (sphereBoxContact sqrt c mySphere myBox) = 8 ∨
    pointsAbove EPSILON myBox (sphereBoxContact sqrt c mySphere myBox) = 8 := by
  have hL := Vector3f.norm_nonneg hs (sphereBoxNormal mySphere myBox)
  rcases corner_sum_sign myBox.halfSize (myBox.invModelMatrix.apply mySphere.position)
    myBox.modelMatrix.linear.col0.squaredNorm myBox.modelMatrix.linear.col1.squaredNorm
    myBox.modelMatrix.linear.col2.squaredNorm hx hy hz (Vector3f.squaredNorm_nonneg _)
    (Vector3f.squaredNorm_nonneg _) (Vector3f.squaredNorm_nonneg _) with hpos | hneg
  · right
    unfold pointsAbove
    rw [List.filter_eq_self.mpr, cornerSigns_length]
    intro σ hσ
    rw [cornerDist_contact c mySphere myBox horth σ]
    have := div_nonneg (hpos σ hσ) hL
    exact decide_eq_true (by linarith)
  · left
    unfold pointsBelow
    rw [List.filter_eq_self.mpr, cornerSigns_length]
    intro σ hσ
    rw [cornerDist_contact c mySphere myBox horth σ]
    have := div_nonpos_of_nonpos_of_nonneg (hneg σ hσ) hL
    exact decide_eq_true (by linarith)

/-- The routine on a sphere and a box, written with the record it builds. -/
theorem detectSphereBox_contact (sqrt : F → F) (EPSILON : F) (c : Collision F)
    (mySphere : Sphere F) (myBox : Box F) (h1 : c.m_object1 = Object.sphere mySphere)
    (h2 : c.m_object2 = Object.box myBox) :
    detectSphereBox sqrt EPSILON c =
      if (sphereBoxNormal mySphere myBox).norm sqrt < mySphere.radius then
        if mySphere.radius - EPSILON ≤
            abs ((sphereBoxContact sqrt c mySphere myBox).m_collisionNormal.dot
              (mySphere.position.sub
                (sphereBoxContact sqrt c mySphere myBox).m_collisionPoint1)) then
          if pointsBelow EPSILON myBox (sphereBoxContact sqrt c mySphere myBox) = 8 ∨
              pointsAbove EPSILON myBox (sphereBoxContact sqrt c mySphere myBox) = 8 then
            Except.ok (true, sphereBoxContact sqrt c mySphere myBox)
          else Except.error Fault.assertionFailed
        else Except.error Fault.assertionFailed
      else Except.ok (false, c) :=
  detectSphereBox_sphere_box sqrt EPSILON c mySphere myBox h1 h2

end gp.engine.Collision

namespace gp.engine.Collision

variable {F : Type} [LinearOrderedField F]

/-- A vector is its unit vector times its length. -/
theorem scale_norm_normalized {sqrt : F → F} (hs : IsSqrt sqrt) (a : Vector3f F) :
    (a.normalized sqrt).scale (a.norm sqrt) = a := by
  rcases (Vector3f.squaredNorm_nonneg a).eq_or_lt with h | h
  · have ha : a = Vector3f.zero := Vector3f.squaredNorm_eq_zero h.symm
    subst ha
    rw [Vector3f.normalized_zero, Vector3f.scale_zero]
  · have hL : a.norm sqrt ≠ 0 := (hs.sqrt_pos h).ne.symm
    rw [Vector3f.normalized_eq_div_norm]
    ext <;> simp only [Vector3f.scale, Vector3f.divScalar] <;> field_simp

/-- In exact arithmetic: with `M (M^-1 c) = c` and a non-zero normal, the distance
asserted on line 83 is the radius. -/
theorem plane_dist_aux {sqrt : F → F} (hs : IsSqrt sqrt) (c : Collision F)
    (mySphere : Sphere F) (myBox : Box F)
    (hinv : myBox.modelMatrix.apply (myBox.invModelMatrix.apply mySphere.position) =
      mySphere.position)
    (hpos : 0 < (sphereBoxNormal mySphere myBox).norm sqrt) (hr : 0 ≤ mySphere.radius) :
    abs ((sphereBoxContact sqrt c mySphere myBox).m_collisionNormal.dot
      (mySphere.position.sub (sphereBoxContact sqrt c mySphere myBox).m_collisionPoint1)) =
      mySphere.radius := by
  have hunit := squaredNorm_normalized hs (Vector3f.norm_pos hs hpos)
  simp only [Vector3f.squaredNorm, Vector3f.dot] at hunit
  have hval : (sphereBoxContact sqrt c mySphere myBox).m_collisionNormal.dot
      (mySphere.position.sub (sphereBoxContact sqrt c mySphere myBox).m_collisionPoint1) =
      -mySphere.radius := by
    simp only [sphereBoxContact, hinv, Vector3f.dot, Vector3f.sub, Vector3f.add, Vector3f.scale]
    linear_combination (-mySphere.radius) * hunit
  rw [hval, abs_neg, abs_of_nonneg hr]

/-- In exact arithmetic: a sphere whose centre is at a positive distance, less
than the radius, from the closest surface point of a box with orthogonal columns:
the routine returns true with the record it built. -/
theorem detectSphereBox_hit_aux (sqrt : F → F) (EPSILON : F) (c : Collision F)
    (mySphere : Sphere F) (myBox : Box F) (h1 : c.m_object1 = Object.sphere mySphere)
    (h2 : c.m_object2 = Object.box myBox) (hs : IsSqrt sqrt) (hE : 0 < EPSILON)
    (hinv : myBox.modelMatrix.apply (myBox.invModelMatrix.apply mySphere.position) =
      mySphere.position)
    (horth : myBox.modelMatrix.linear.OrthogonalColumns) (hx : 0 ≤ myBox.halfSize.x)
    (hy : 0 ≤ myBox.halfSize.y) (hz : 0 ≤ myBox.halfSize.z)
    (hpos : 0 < (sphereBoxNormal mySphere myBox).norm sqrt)
    (hlt : (sphereBoxNormal mySphere myBox).norm sqrt < mySphere.radius) :
    detectSphereBox sqrt EPSILON c =
      Except.ok (true,
        { c with
          m_collisionPoint1 :=
            mySphere.position.add
              (((sphereBoxNormal mySphere myBox).divScalar
                ((sphereBoxNormal mySphere myBox).norm sqrt)).scale mySphere.radius)
          m_collisionPoint2 :=
            myBox.modelMatrix.apply
              ((AABox.mk myBox.halfSize).closestPointOnSurface
                (myBox.invModelMatrix.apply mySphere.position))
          m_collisionNormal :=
            (sphereBoxNormal mySphere myBox).divScalar
              ((sphereBoxNormal mySphere myBox).norm sqrt)
          m_interpenetrationDepth :=
            mySphere.radius - (sphereBoxNormal mySphere myBox).norm sqrt }) := by
  rw [detectSphereBox_contact sqrt EPSILON c mySphere myBox h1 h2, if_pos hlt,
    plane_dist_aux hs c mySphere myBox hinv hpos (hpos.le.trans hlt.le),
    if_pos (by linarith), if_pos (corners_one_side_aux hs hE c mySphere myBox horth hx hy hz)]
  simp only [sphereBoxContact, hinv, Vector3f.normalized_eq_div_norm]

theorem Vector3f_norm_along_x_abs {sqrt : F → F} (hs : IsSqrt sqrt) (a : F) :
    (⟨a, 0, 0⟩ : Vector3f F).norm sqrt = abs a := by
  have h : (⟨a, 0, 0⟩ : Vector3f F).squaredNorm = abs a * abs a := by
    simp [Vector3f.squaredNorm, Vector3f.dot]
  rw [Vector3f.norm, h, hs.sqrt_mul_self (abs_nonneg a)]

theorem orthogonalColumns_identity : (Matrix3f.identity : Matrix3f F).OrthogonalColumns := by
  simp [Matrix3f.OrthogonalColumns, Matrix3f.identity, Matrix3f.col0, Matrix3f.col1,
    Matrix3f.col2, Vector3f.dot]

/-- The run of a unit sphere centred at (3/2,0,0) against the axis-aligned unit
cube at the origin, in exact real arithmetic. -/
theorem detectSphereBox_concrete_aux :
    detectSphereBox Real.sqrt (1 / 1000)
        (sphereBoxPair ⟨⟨3 / 2, 0, 0⟩, 1⟩ (axisAlignedBox ⟨1, 1, 1⟩)) =
      Except.ok (true,
        { sphereBoxPair ⟨⟨3 / 2, 0, 0⟩, 1⟩ (axisAlignedBox ⟨1, 1, 1⟩) with
          m_collisionPoint1 := ⟨1 / 2, 0, 0⟩
          m_collisionPoint2 := ⟨1, 0, 0⟩
          m_collisionNormal := ⟨-1, 0, 0⟩
          m_interpenetrationDepth := 1 / 2 }) := by
  have hp : (AABox.mk (⟨1, 1, 1⟩ : Vector3f ℝ)).closestPointOnSurface ⟨3 / 2, 0, 0⟩ =
      ⟨1, 0, 0⟩ := by
    unfold AABox.closestPointOnSurface
    have hnot : ¬ (abs (3 / 2 : ℝ) < 1 ∧ abs (0 : ℝ) < 1 ∧ abs (0 : ℝ) < 1) := by
      norm_num [abs_of_nonneg]
    simp only [hnot, if_false]
    ext <;> simp [clamp]
    norm_num
  have hn : sphereBoxNormal (⟨⟨3 / 2, 0, 0⟩, 1⟩ : Sphere ℝ) (axisAlignedBox ⟨1, 1, 1⟩) =
      ⟨-(1 / 2), 0, 0⟩ := by
    unfold sphereBoxNormal
    simp only [axisAlignedBox, Affine3f.identity_apply, hp]
    ext <;> simp [Affine3f.identity, Matrix3f.identity, Matrix3f.mulVec, Vector3f.dot,
      Vector3f.sub]
    norm_num
  have hL : (sphereBoxNormal (⟨⟨3 / 2, 0, 0⟩, 1⟩ : Sphere ℝ)
      (axisAlignedBox ⟨1, 1, 1⟩)).norm Real.sqrt = 1 / 2 := by
    rw [hn, Vector3f_norm_along_x_abs isSqrt_real]
    norm_num [abs_of_nonneg]
  rw [detectSphereBox_hit_aux Real.sqrt (1 / 1000) _ ⟨⟨3 / 2, 0, 0⟩, 1⟩
    (axisAlignedBox ⟨1, 1, 1⟩) rfl rfl isSqrt_real (by norm_num)
    (by simp only [axisAlignedBox, Affine3f.identity_apply]) orthogonalColumns_identity
    (by simp [axisAlignedBox]) (by simp [axisAlignedBox]) (by simp [axisAlignedBox])
    (by rw [hL]; norm_num) (by rw [hL]; norm_num), hL, hn]
  simp only [axisAlignedBox, Affine3f.identity_apply, hp, sphereBoxPair, Vector3f.add,
    Vector3f.scale, Vector3f.divScalar]
  norm_num

end gp.engine.Collision

namespace gp.engine.Collision

variable {F : Type} [LinearOrderedField F]

/-- When the sphere's centre is its own closest surface point the un-normalized
normal is the zero vector. -/
theorem sphereBoxNormal_on_surface (mySphere : Sphere F) (myBox : Box F)
    (hsurf : (AABox.mk myBox.halfSize).closestPointOnSurface
      (myBox.invModelMatrix.apply mySphere.position) =
        myBox.invModelMatrix.apply mySphere.position) :
    sphereBoxNormal mySphere myBox = Vector3f.zero := by
  unfold sphereBoxNormal
  rw [hsurf, Vector3f.sub_self, Matrix3f.mulVec_zero]

theorem unitCube_face_point (r : F) :
    (AABox.mk (axisAlignedBox (⟨1, 1, 1⟩ : Vector3f F)).halfSize).closestPointOnSurface
      ((axisAlignedBox (⟨1, 1, 1⟩ : Vector3f F)).invModelMatrix.apply
        (Sphere.mk (⟨1, 0, 0⟩ : Vector3f F) r).position) =
      (axisAlignedBox (⟨1, 1, 1⟩ : Vector3f F)).invModelMatrix.apply
        (Sphere.mk (⟨1, 0, 0⟩ : Vector3f F) r).position := by
  simp only [axisAlignedBox, Affine3f.identity_apply]
  exact AABox.closestPointOnSurface_face_x ⟨1, 1, 1⟩ 0 0 zero_le_one (by simp) (by simp)

/-- C11 at the failing inputs: a sphere of radius above EPSILON whose centre
(1,0,0) lies on a face of the axis-aligned unit cube: the length of the normal, 0,
is less than the radius, yet the routine does not return true, it stops at the
assertion of line 83. -/
theorem detectSphereBox_surface_not_true (sqrt : F → F) (EPSILON r : F) (hs : IsSqrt sqrt)
    (hE : 0 < EPSILON) (hr : EPSILON < r) :
    (sphereBoxNormal ⟨⟨1, 0, 0⟩, r⟩ (axisAlignedBox (⟨1, 1, 1⟩ : Vector3f F))).norm sqrt < r ∧
    (¬ ∃ st, detectSphereBox sqrt EPSILON
      (sphereBoxPair ⟨⟨1, 0, 0⟩, r⟩ (axisAlignedBox ⟨1, 1, 1⟩)) = Except.ok (true, st)) ∧
    detectSphereBox sqrt EPSILON (sphereBoxPair ⟨⟨1, 0, 0⟩, r⟩ (axisAlignedBox ⟨1, 1, 1⟩)) =
      Except.error Fault.assertionFailed := by
  have hr0 : 0 < r := lt_trans hE hr
  have hf : detectSphereBox sqrt EPSILON
      (sphereBoxPair ⟨⟨1, 0, 0⟩, r⟩ (axisAlignedBox ⟨1, 1, 1⟩)) =
      Except.error Fault.assertionFailed := by
    rw [detectSphereBox_on_surface sqrt EPSILON _ ⟨⟨1, 0, 0⟩, r⟩ (axisAlignedBox ⟨1, 1, 1⟩)
      rfl rfl hs.sqrt_zero hE hr0 (unitCube_face_point r), if_neg (not_le.mpr hr)]
  refine ⟨?_, ?_, hf⟩
  · rw [sphereBoxNormal_on_surface _ _ (unitCube_face_point r)]
    simpa [Vector3f.norm, Vector3f.squaredNorm_zero, hs.sqrt_zero] using hr0
  · rintro ⟨st, hst⟩
    rw [hf] at hst
    exact absurd hst (by simp)

/-- Witness of C11: radius 1 and EPSILON = 1/1000 in exact real arithmetic. -/
theorem detectSphereBox_surface_not_true_witness :
    detectSphereBox Real.sqrt (1 / 1000)
      (sphereBoxPair ⟨⟨1, 0, 0⟩, 1⟩ (axisAlignedBox ⟨1, 1, 1⟩)) =
      Except.error Fault.assertionFailed :=
  (detectSphereBox_surface_not_true Real.sqrt (1 / 1000) 1 isSqrt_real (by norm_num)
    (by norm_num)).2.2

/-- C19 at the failing inputs: when the sphere's centre is its own closest
surface point and the radius exceeds EPSILON, the asserted distance is 0, below
`radius - EPSILON`, and the routine stops at the assertion of line 83. -/
theorem detectSphereBox_plane_assertion_fails (sqrt : F → F) (EPSILON : F) (c : Collision F)
    (mySphere : Sphere F) (myBox : Box F) (h1 : c.m_object1 = Object.sphere mySphere)
    (h2 : c.m_object2 = Object.box myBox) (hs : IsSqrt sqrt) (hE : 0 < EPSILON)
    (hr : EPSILON < mySphere.radius)
    (hsurf : (AABox.mk myBox.halfSize).closestPointOnSurface
      (myBox.invModelMatrix.apply mySphere.position) =
        myBox.invModelMatrix.apply mySphere.position) :
    abs ((sphereBoxContact sqrt c mySphere myBox).m_collisionNormal.dot
      (mySphere.position.sub (sphereBoxContact sqrt c mySphere myBox).m_collisionPoint1)) = 0 ∧
    (sphereBoxNormal mySphere myBox).norm sqrt < mySphere.radius ∧
    detectSphereBox sqrt EPSILON c = Except.error Fault.assertionFailed := by
  have hn := sphereBoxNormal_on_surface mySphere myBox hsurf
  have hr0 : 0 < mySphere.radius := lt_trans hE hr
  refine ⟨?_, ?_, ?_⟩
  · simp only [sphereBoxContact, hn, Vector3f.normalized_zero, Vector3f.zero_dot, abs_zero]
  · rw [hn]
    simpa [Vector3f.norm, Vector3f.squaredNorm_zero, hs.sqrt_zero] using hr0
  · rw [detectSphereBox_on_surface sqrt EPSILON c mySphere myBox h1 h2 hs.sqrt_zero hE hr0
      hsurf, if_neg (not_le.mpr hr)]

/-- Witness of C19: a unit sphere centred at (0,1,0), on the face `y = 1` of the
axis-aligned box of half-extents (2,1,2) centred at the origin, EPSILON = 1/1000. -/
theorem detectSphereBox_plane_assertion_fails_witness :
    detectSphereBox Real.sqrt (1 / 1000)
      (sphereBoxPair ⟨⟨0, 1, 0⟩, 1⟩ (axisAlignedBox ⟨2, 1, 2⟩)) =
      Except.error Fault.assertionFailed := by
  refine (detectSphereBox_plane_assertion_fails Real.sqrt (1 / 1000)
    (sphereBoxPair ⟨⟨0, 1, 0⟩, 1⟩ (axisAlignedBox ⟨2, 1, 2⟩)) ⟨⟨0, 1, 0⟩, 1⟩
    (axisAlignedBox ⟨2, 1, 2⟩) rfl rfl isSqrt_real (by norm_num) (by norm_num) ?_).2.2
  simp only [axisAlignedBox, Affine3f.identity_apply]
  unfold AABox.closestPointOnSurface
  have hnot : ¬ (abs (0 : ℝ) < 2 ∧ abs (1 : ℝ) < 1 ∧ abs (0 : ℝ) < 2) := by norm_num
  simp only [hnot, if_false]
  ext <;> simp [clamp]

end gp.engine.Collision

namespace gp.engine.Collision

variable {F : Type} [LinearOrderedField F]

/-- A true result of `detectSphereSphere` comes from two spheres through the
branch of line 50. -/
theorem detectSphereSphere_true_inv (sqrt : F → F) (EPSILON : F) (c st : Collision F)
    (h : detectSphereSphere sqrt EPSILON c = Except.ok (true, st)) :
    ∃ s1 s2 : Sphere F,
      st = { c with
        m_collisionNormal := (s2.position.sub s1.position).normalized sqrt
        m_collisionPoint1 :=
          s1.position.add (((s2.position.sub s1.position).normalized sqrt).scale s1.radius)
        m_collisionPoint2 :=
          s2.position.sub (((s2.position.sub s1.position).normalized sqrt).scale s2.radius)
        m_interpenetrationDepth :=
          s1.radius + s2.radius - (s2.position.sub s1.position).norm sqrt } := by
  unfold detectSphereSphere at h
  split at h
  · rename_i s1 s2 _ _
    dsimp only at h
    split_ifs at h
    · simp only [Except.ok.injEq, Prod.mk.injEq, true_and] at h
      exact ⟨s1, s2, h.symm⟩
    · simp at h
  · simp at h

/-- A true result of `detectSphereBox` is the record built on lines 75-78. -/
theorem detectSphereBox_true_inv (sqrt : F → F) (EPSILON : F) (c st : Collision F)
    (h : detectSphereBox sqrt EPSILON c = Except.ok (true, st)) :
    ∃ (mySphere : Sphere F) (myBox : Box F), st = sphereBoxContact sqrt c mySphere myBox := by
  unfold detectSphereBox at h
  split at h
  · rename_i myBox mySphere _ _
    dsimp only at h
    split_ifs at h
    · simp only [Except.ok.injEq, Prod.mk.injEq, true_and] at h
      exact ⟨mySphere, myBox, h.symm⟩
    · simp at h
  · simp at h

theorem Matrix3f_mulVec_sub_swap (m : Matrix3f F) (a b : Vector3f F) :
    m.mulVec (a.sub b) = (m.mulVec (b.sub a)).neg := by
  ext <;> simp only [Matrix3f.mulVec, Vector3f.dot, Vector3f.sub, Vector3f.neg] <;> ring

/-- In exact arithmetic, with an exact square root, whenever `detectSphereSphere`
or `detectSphereBox` returns true the outputs satisfy
`collisionPoint1 - collisionPoint2 = interpenetrationDepth * collisionNormal`.
The proof uses `(a / |a|) * |a| = a` and the field laws, which rounded operations
do not satisfy. -/
theorem contact_points_exact_arithmetic (sqrt : F → F) (EPSILON : F) (c : Collision F)
    (hs : IsSqrt sqrt) :
    (∀ st, detectSphereSphere sqrt EPSILON c = Except.ok (true, st) →
      st.m_collisionPoint1.sub st.m_collisionPoint2 =
        st.m_collisionNormal.scale st.m_interpenetrationDepth) ∧
    (∀ st, detectSphereBox sqrt EPSILON c = Except.ok (true, st) →
      st.m_collisionPoint1.sub st.m_collisionPoint2 =
        st.m_collisionNormal.scale st.m_interpenetrationDepth) := by
  constructor
  · intro st h
    obtain ⟨s1, s2, rfl⟩ := detectSphereSphere_true_inv sqrt EPSILON c st h
    have hd := scale_norm_normalized hs (s2.position.sub s1.position)
    have hx := congrArg Vector3f.x hd
    have hy := congrArg Vector3f.y hd
    have hz := congrArg Vector3f.z hd
    simp only [Vector3f.scale, Vector3f.sub] at hx hy hz
    ext
    · simp only [Vector3f.scale, Vector3f.sub, Vector3f.add]
      linear_combination hx
    · simp only [Vector3f.scale, Vector3f.sub, Vector3f.add]
      linear_combination hy
    · simp only [Vector3f.scale, Vector3f.sub, Vector3f.add]
      linear_combination hz
  · intro st h
    obtain ⟨mySphere, myBox, rfl⟩ := detectSphereBox_true_inv sqrt EPSILON c st h
    have hd := scale_norm_normalized hs (sphereBoxNormal mySphere myBox)
    have hm := Affine3f.apply_sub_apply myBox.modelMatrix
      (myBox.invModelMatrix.apply mySphere.position)
      ((AABox.mk myBox.halfSize).closestPointOnSurface
        (myBox.invModelMatrix.apply mySphere.position))
    rw [Matrix3f_mulVec_sub_swap] at hm
    have hn : sphereBoxNormal mySphere myBox = myBox.modelMatrix.linear.mulVec
        (((AABox.mk myBox.halfSize).closestPointOnSurface
          (myBox.invModelMatrix.apply mySphere.position)).sub
        (myBox.invModelMatrix.apply mySphere.position)) := rfl
    rw [← hn] at hm
    have hx := congrArg Vector3f.x hd
    have hy := congrArg Vector3f.y hd
    have hz := congrArg Vector3f.z hd
    have mx := congrArg Vector3f.x hm
    have my := congrArg Vector3f.y hm
    have mz := congrArg Vector3f.z hm
    simp only [Vector3f.scale, Vector3f.sub, Vector3f.neg] at hx hy hz mx my mz
    ext
    · simp only [sphereBoxContact, Vector3f.scale, Vector3f.sub, Vector3f.add]
      linear_combination mx + hx
    · simp only [sphereBoxContact, Vector3f.scale, Vector3f.sub, Vector3f.add]
      linear_combination my + hy
    · simp only [sphereBoxContact, Vector3f.scale, Vector3f.sub, Vector3f.add]
      linear_combination mz + hz

end gp.engine.Collision

/-! ## The routines with the arithmetic as a parameter: the exact instance -/

namespace gp

variable {F : Type} [LinearOrderedField F]

/-- The scalar product with exact operations is the scalar product of the field. -/
theorem exactOps_dot (sqrt : F → F) (a b : Vector3f F) : (exactOps sqrt).dot a b = a.dot b := by
  simp only [FloatOps.dot, exactOps, Vector3f.dot, add_assoc]

/-- The length with exact operations is the length of the field. -/
theorem exactOps_norm (sqrt : F → F) (a : Vector3f F) : (exactOps sqrt).norm a = a.norm sqrt := by
  simp only [FloatOps.norm, FloatOps.squaredNorm, exactOps_dot, Vector3f.norm, Vector3f.squaredNorm]
  rfl

/-- Normalization with exact operations is the normalization of the field. -/
theorem exactOps_normalized (sqrt : F → F) (a : Vector3f F) :
    (exactOps sqrt).normalized a = a.normalized sqrt := by
  simp only [FloatOps.normalized, FloatOps.squaredNorm, exactOps_dot, Vector3f.normalized,
    Vector3f.squaredNorm]
  simp only [exactOps, decide_eq_true_eq, FloatOps.vdiv, Vector3f.divScalar]

/-- The product `s * a` with exact operations is the scaled vector. -/
theorem exactOps_smul (sqrt : F → F) (s : F) (a : Vector3f F) :
    (exactOps sqrt).smul s a = a.scale s := by
  simp only [FloatOps.smul, exactOps, Vector3f.scale, mul_comm]

/-- The matrix product with exact operations is the matrix product of the field. -/
theorem exactOps_mulVec (sqrt : F → F) (m : Matrix3f F) (v : Vector3f F) :
    (exactOps sqrt).mulVec m v = m.mulVec v := by
  simp only [FloatOps.mulVec, exactOps_dot, Matrix3f.mulVec]

/-- The transform with exact operations is the transform of the field. -/
theorem exactOps_apply (sqrt : F → F) (m : Affine3f F) (v : Vector3f F) :
    (exactOps sqrt).apply m v = m.apply v := by
  simp only [FloatOps.apply, exactOps_mulVec, Affine3f.apply]
  rfl

end gp

namespace gp.engine

variable {F : Type} [LinearOrderedField F]

/-- The clamp with exact comparisons is the clamp of the field. -/
theorem clampWith_exactOps (sqrt : F → F) (v lo hi : F) :
    clampWith (exactOps sqrt) v lo hi = clamp v lo hi := by
  simp only [clampWith, clamp, exactOps, decide_eq_true_eq, max_def, min_def]

/-- The face coordinate with exact comparisons is the face coordinate of the field. -/
theorem faceCoordWith_exactOps (sqrt : F → F) (v h : F) :
    faceCoordWith (exactOps sqrt) v h = faceCoord v h := by
  simp only [faceCoordWith, faceCoord, exactOps, decide_eq_true_eq]

/-- The closest surface point with exact operations is that of the field. -/
theorem AABox.closestPointOnSurfaceWith_exactOps (sqrt : F → F) (a : AABox F)
    (p : Vector3f F) :
    a.closestPointOnSurfaceWith (exactOps sqrt) p = a.closestPointOnSurface p := by
  simp only [AABox.closestPointOnSurfaceWith, AABox.closestPointOnSurface, clampWith_exactOps,
    faceCoordWith_exactOps]
  simp only [exactOps, Bool.and_eq_true, decide_eq_true_eq, and_assoc]

end gp.engine

namespace gp.engine.Collision

variable {F : Type} [LinearOrderedField F]

/-- The corner signs with exact operations are `-1` and `1`. -/
theorem cornerSignsWith_exactOps (sqrt : F → F) :
    cornerSignsWith (exactOps sqrt) = (cornerSigns : List (F × F × F)) := rfl

/-- The corner distance with exact operations is that of the field. -/
theorem cornerDistWith_exactOps (sqrt : F → F) (myBox : Box F) (c : Collision F)
    (s : F × F × F) : cornerDistWith (exactOps sqrt) myBox c s = cornerDist myBox c s := by
  simp only [cornerDistWith, cornerDist, exactOps_apply, exactOps_dot]
  rfl

/-- The counter `pointsAbove` with exact operations is that of the field. -/
theorem pointsAboveWith_exactOps (sqrt : F → F) (EPSILON : F) (myBox : Box F)
    (c : Collision F) :
    pointsAboveWith (exactOps sqrt) EPSILON myBox c = pointsAbove EPSILON myBox c := by
  simp only [pointsAboveWith, pointsAbove, cornerSignsWith_exactOps, cornerDistWith_exactOps]
  rfl

/-- The counter `pointsBelow` with exact operations is that of the field. -/
theorem pointsBelowWith_exactOps (sqrt : F → F) (EPSILON : F) (myBox : Box F)
    (c : Collision F) :
    pointsBelowWith (exactOps sqrt) EPSILON myBox c = pointsBelow EPSILON myBox c := by
  simp only [pointsBelowWith, pointsBelow, cornerSignsWith_exactOps, cornerDistWith_exactOps]
  rfl

/-- The exact sphere-sphere routine is `detectSphereSphereWith` at the exact
operations. -/
theorem detectSphereSphere_eq_with (sqrt : F → F) (EPSILON : F) (c : Collision F) :
    detectSphereSphere sqrt EPSILON c = detectSphereSphereWith (exactOps sqrt) EPSILON c := by
  unfold detectSphereSphere detectSphereSphereWith
  split
  · simp only [exactOps_norm, exactOps_normalized]
    simp only [exactOps, decide_eq_true_eq, FloatOps.vadd, FloatOps.vsub, FloatOps.vscale,
      Vector3f.add, Vector3f.sub, Vector3f.scale]
  · rfl

/-- The exact sphere-box routine is `detectSphereBoxWith` at the exact operations. -/
theorem detectSphereBox_eq_with (sqrt : F → F) (EPSILON : F) (c : Collision F) :
    detectSphereBox sqrt EPSILON c = detectSphereBoxWith (exactOps sqrt) EPSILON c := by
  unfold detectSphereBox detectSphereBoxWith
  split
  · simp only [exactOps_norm, exactOps_normalized, exactOps_apply, exactOps_mulVec,
      exactOps_dot, exactOps_smul, pointsAboveWith_exactOps, pointsBelowWith_exactOps,
      AABox.closestPointOnSurfaceWith_exactOps]
    simp only [exactOps, decide_eq_true_eq, FloatOps.vadd, FloatOps.vsub,
      Vector3f.add, Vector3f.sub]
  · rfl

end gp.engine.Collision

/-! ## The rounding of the binary32 model -/

namespace gp.Binary32

/-- The digits counted by `bitsAux` bound the number from both sides. -/
theorem bitsAux_spec (fuel : Nat) : ∀ n : Nat, n < 2 ^ fuel →
    n < 2 ^ bitsAux fuel n ∧ (n ≠ 0 → 2 ^ (bitsAux fuel n - 1) ≤ n) := by
  induction fuel with
  | zero =>
    intro n hn
    simp only [pow_zero, Nat.lt_one_iff] at hn
    subst hn
    simp [bitsAux]
  | succ k ih =>
    intro n hn
    unfold bitsAux
    by_cases h0 : n = 0
    · subst h0
      simp
    · rw [if_neg h0]
      have hhalf : n / 2 < 2 ^ k := by
        rw [Nat.div_lt_iff_lt_mul (by norm_num)]
        rw [pow_succ] at hn
        exact hn
      obtain ⟨h1, h2⟩ := ih (n / 2) hhalf
      constructor
      · rw [pow_succ]
        omega
      · intro _
        simp only [Nat.add_sub_cancel]
        by_cases h3 : n / 2 = 0
        · have hz : bitsAux k 0 = 0 := by cases k <;> simp [bitsAux]
          rw [h3, hz, pow_zero]
          omega
        · have h4 := h2 h3
          have h5 : 0 < bitsAux k (n / 2) := by
            by_contra hc
            simp only [not_lt, Nat.le_zero] at hc
            rw [hc] at h1
            simp only [pow_zero, Nat.lt_one_iff] at h1
            exact h3 h1
          have h6 : bitsAux k (n / 2) = (bitsAux k (n / 2) - 1) + 1 := by omega
          rw [h6, pow_succ]
          omega

/-- A number has `bits n` binary digits: `2^(bits n - 1) <= n < 2^(bits n)`. -/
theorem bits_spec (n : Nat) : n < 2 ^ bits n ∧ (n ≠ 0 → 2 ^ (bits n - 1) ≤ n) :=
  bitsAux_spec n n (Nat.lt_two_pow n)

/-- The invariant of the digit-by-digit square root. -/
theorem sqrtAux_spec (n : Nat) : ∀ (b r : Nat), r * r ≤ n → n < (r + 2 ^ b) * (r + 2 ^ b) →
    sqrtAux b r n * sqrtAux b r n ≤ n ∧ n < (sqrtAux b r n + 1) * (sqrtAux b r n + 1) := by
  intro b
  induction b with
  | zero =>
    intro r h1 h2
    simpa [sqrtAux] using ⟨h1, h2⟩
  | succ k ih =>
    intro r h1 h2
    unfold sqrtAux
    by_cases hc : (r + 2 ^ k) * (r + 2 ^ k) ≤ n
    · rw [if_pos hc]
      apply ih _ hc
      have : r + 2 ^ k + 2 ^ k = r + 2 ^ (k + 1) := by rw [pow_succ]; omega
      rw [this]
      exact h2
    · rw [if_neg hc]
      exact ih _ h1 (not_le.mp hc)

/-- The integer square root: `isqrt n` is the largest number whose square is at
most `n`. -/
theorem isqrt_spec (n : Nat) : isqrt n * isqrt n ≤ n ∧ n < (isqrt n + 1) * (isqrt n + 1) := by
  unfold isqrt
  apply sqrtAux_spec n _ 0 (Nat.zero_le _)
  have h1 := (bits_spec n).1
  have h2 : bits n ≤ 2 * (bits n / 2 + 1) := by omega
  calc n < 2 ^ bits n := h1
    _ ≤ 2 ^ (2 * (bits n / 2 + 1)) := Nat.pow_le_pow_right (by norm_num) h2
    _ = (0 + 2 ^ (bits n / 2 + 1)) * (0 + 2 ^ (bits n / 2 + 1)) := by
        rw [Nat.zero_add, ← pow_two, ← pow_mul, Nat.mul_comm]

/-- Rounding to nearest: `roundNat a b` is a multiple `k * 2^e` of the unit, at most
half a unit away from `a / b` (stated after multiplication by `b`), and in a tie
the even multiple. -/
theorem roundNat_nearest (a b : Nat) (hb : 0 < b) :
    ∃ k : Nat, roundNat a b = k * 2 ^ (bits (a / b) - 24) ∧
      2 * a ≤ (2 * k + 1) * (b * 2 ^ (bits (a / b) - 24)) ∧
      (2 * k) * (b * 2 ^ (bits (a / b) - 24)) ≤ 2 * a + b * 2 ^ (bits (a / b) - 24) ∧
      ((2 * a = (2 * k + 1) * (b * 2 ^ (bits (a / b) - 24)) ∨
        (2 * k) * (b * 2 ^ (bits (a / b) - 24)) = 2 * a + b * 2 ^ (bits (a / b) - 24)) →
        k % 2 = 0) := by
  have hu : 0 < b * 2 ^ (bits (a / b) - 24) := Nat.mul_pos hb (pow_pos (by norm_num) _)
  have hdm := Nat.div_add_mod a (b * 2 ^ (bits (a / b) - 24))
  have hlt := Nat.mod_lt a hu
  have hr : roundNat a b =
      if 2 * (a % (b * 2 ^ (bits (a / b) - 24))) < b * 2 ^ (bits (a / b) - 24) then
        a / (b * 2 ^ (bits (a / b) - 24)) * 2 ^ (bits (a / b) - 24)
      else if b * 2 ^ (bits (a / b) - 24) < 2 * (a % (b * 2 ^ (bits (a / b) - 24))) then
        (a / (b * 2 ^ (bits (a / b) - 24)) + 1) * 2 ^ (bits (a / b) - 24)
      else if a / (b * 2 ^ (bits (a / b) - 24)) % 2 = 0 then
        a / (b * 2 ^ (bits (a / b) - 24)) * 2 ^ (bits (a / b) - 24)
      else (a / (b * 2 ^ (bits (a / b) - 24)) + 1) * 2 ^ (bits (a / b) - 24) := rfl
  rw [hr]
  generalize b * 2 ^ (bits (a / b) - 24) = u at hu hdm hlt ⊢
  generalize a / u = k at hdm ⊢
  generalize a % u = r at hdm hlt ⊢
  have e1 : (2 * k + 1) * u = 2 * (u * k) + u := by ring
  have e2 : (2 * k) * u = 2 * (u * k) := by ring
  have e3 : (2 * (k + 1) + 1) * u = 2 * (u * k) + 3 * u := by ring
  have e4 : (2 * (k + 1)) * u = 2 * (u * k) + 2 * u := by ring
  generalize u * k = p at hdm e1 e2 e3 e4
  split_ifs with h1 h2 h3
  · refine ⟨k, rfl, ?_, ?_, ?_⟩
    · rw [e1]; omega
    · rw [e2]; omega
    · rw [e1, e2]; omega
  · refine ⟨k + 1, rfl, ?_, ?_, ?_⟩
    · rw [e3]; omega
    · rw [e4]; omega
    · rw [e3, e4]; omega
  · refine ⟨k, rfl, ?_, ?_, ?_⟩
    · rw [e1]; omega
    · rw [e2]; omega
    · intro _; exact h3
  · refine ⟨k + 1, rfl, ?_, ?_, ?_⟩
    · rw [e3]; omega
    · rw [e4]; omega
    · intro _; omega

/-- The quotient keeps at most 24 binary digits: the multiple `k` of the unit that
`roundNat` returns is at most `2^24`. -/
theorem roundNat_digits (a b : Nat) :
    a / (b * 2 ^ (bits (a / b) - 24)) < 2 ^ 24 := by
  rw [← Nat.div_div_eq_div_mul]
  have h1 := (bits_spec (a / b)).1
  generalize a / b = q at h1 ⊢
  rw [Nat.div_lt_iff_lt_mul (pow_pos (by norm_num) _), ← pow_add]
  refine lt_of_lt_of_le h1 (Nat.pow_le_pow_right (by norm_num) ?_)
  omega

/-- Rounding of the square root to nearest: `roundSqrt n` is a multiple `R` of the
unit `2^e`, with `R - 2^e / 2 <= sqrt n <= R + 2^e / 2` (stated on the squares,
after doubling). -/
theorem roundSqrt_nearest (n : Nat) :
    2 ^ (bits (isqrt n) - 24) ∣ roundSqrt n ∧
    (2 * roundSqrt n - 2 ^ (bits (isqrt n) - 24)) ^ 2 ≤ 4 * n ∧
    4 * n ≤ (2 * roundSqrt n + 2 ^ (bits (isqrt n) - 24)) ^ 2 := by
  obtain ⟨hs1, hs2⟩ := isqrt_spec n
  have hdm := Nat.div_add_mod (isqrt n) (2 ^ (bits (isqrt n) - 24))
  have hlt := Nat.mod_lt (isqrt n) (pow_pos (by norm_num : 0 < 2) (bits (isqrt n) - 24))
  have hr : roundSqrt n =
      if 4 * n < (2 * (isqrt n / 2 ^ (bits (isqrt n) - 24) * 2 ^ (bits (isqrt n) - 24)) +
            2 ^ (bits (isqrt n) - 24)) *
          (2 * (isqrt n / 2 ^ (bits (isqrt n) - 24) * 2 ^ (bits (isqrt n) - 24)) +
            2 ^ (bits (isqrt n) - 24)) then
        isqrt n / 2 ^ (bits (isqrt n) - 24) * 2 ^ (bits (isqrt n) - 24)
      else if (2 * (isqrt n / 2 ^ (bits (isqrt n) - 24) * 2 ^ (bits (isqrt n) - 24)) +
            2 ^ (bits (isqrt n) - 24)) *
          (2 * (isqrt n / 2 ^ (bits (isqrt n) - 24) * 2 ^ (bits (isqrt n) - 24)) +
            2 ^ (bits (isqrt n) - 24)) < 4 * n then
        isqrt n / 2 ^ (bits (isqrt n) - 24) * 2 ^ (bits (isqrt n) - 24) +
          2 ^ (bits (isqrt n) - 24)
      else if isqrt n / 2 ^ (bits (isqrt n) - 24) % 2 = 0 then
        isqrt n / 2 ^ (bits (isqrt n) - 24) * 2 ^ (bits (isqrt n) - 24)
      else isqrt n / 2 ^ (bits (isqrt n) - 24) * 2 ^ (bits (isqrt n) - 24) +
        2 ^ (bits (isqrt n) - 24) := rfl
  rw [hr]
  generalize 2 ^ (bits (isqrt n) - 24) = w at hdm hlt ⊢
  generalize isqrt n = s at hs1 hs2 hdm hlt ⊢
  generalize s / w = k at hdm ⊢
  generalize s % w = r at hdm hlt ⊢
  have hg : k * w ≤ s := by rw [Nat.mul_comm]; omega
  have hg2 : s + 1 ≤ k * w + w := by rw [Nat.mul_comm]; omega
  have hlow : (2 * (k * w)) ^ 2 ≤ 4 * n := by nlinarith [Nat.mul_le_mul hg hg]
  have hup : 4 * n ≤ (2 * (k * w) + 2 * w) ^ 2 := by nlinarith [Nat.mul_le_mul hg2 hg2]
  have hA : (2 * (k * w) - w) ^ 2 ≤ (2 * (k * w)) ^ 2 :=
    Nat.pow_le_pow_left (Nat.sub_le _ _) 2
  have hB : (2 * (k * w) + 2 * w) ^ 2 ≤ (2 * (k * w + w) + w) ^ 2 :=
    Nat.pow_le_pow_left (by omega) 2
  have hC : 2 * (k * w + w) - w = 2 * (k * w) + w := by omega
  split_ifs with h1 h2 h3
  · refine ⟨Dvd.intro_left k rfl, le_trans hA hlow, ?_⟩
    rw [pow_two]; omega
  · refine ⟨⟨k + 1, by ring⟩, ?_, le_trans hup hB⟩
    rw [hC, pow_two]; omega
  · refine ⟨Dvd.intro_left k rfl, le_trans hA hlow, ?_⟩
    rw [pow_two]; omega
  · refine ⟨⟨k + 1, by ring⟩, ?_, le_trans hup hB⟩
    rw [hC, pow_two]; omega

end gp.Binary32

/-! ## The sphere routines in binary32 arithmetic -/

namespace gp.Binary32

set_option maxRecDepth 100000

/-- Known values of the model: `1/3`, `1/10` and the square root of `2` round to
the binary32 numbers `0x3EAAAAAB`, `0x3DCCCCCD` and `0x3FB504F3`; `2^24 + 1` and
`2^24 + 3` are ties and go to the even neighbour; in the subnormal range half of
`2^-149` rounds to `0` and three halves of it to `2 * 2^-149`. -/
theorem known_values :
    div (ofScaled 1 149) (ofScaled 3 149) = ofScaled 11184811 124 ∧
    div (ofScaled 1 149) (ofScaled 10 149) = ofScaled 13421773 122 ∧
    sqrt (ofScaled 2 149) = ofScaled 11863283 126 ∧
    add (ofScaled 16777216 149) (ofScaled 1 149) = ofScaled 16777216 149 ∧
    add (ofScaled 16777218 149) (ofScaled 1 149) = ofScaled 16777220 149 ∧
    mul 1 (ofScaled 1 148) = 0 ∧
    mul 3 (ofScaled 1 148) = 2 := by
  decide

end gp.Binary32

namespace gp.engine.Collision

open Binary32

set_option maxRecDepth 100000

/-- The routine on two spheres with the operations of `ops`, the two pointer
casts resolved. -/
theorem detectSphereSphereWith_spheres {F : Type} (ops : FloatOps F) (EPSILON : F)
    (c : Collision F) (s1 s2 : Sphere F) (h1 : c.m_object1 = Object.sphere s1)
    (h2 : c.m_object2 = Object.sphere s2) :
    detectSphereSphereWith ops EPSILON c =
      if ops.lt (ops.norm (ops.vsub s2.position s1.position)) (ops.add s1.radius s2.radius) then
        if ops.lt (ops.abs (ops.sub
            (ops.norm (ops.normalized (ops.vsub s2.position s1.position))) ops.one))
            EPSILON then
          Except.ok (true,
            { c with
              m_collisionNormal := ops.normalized (ops.vsub s2.position s1.position)
              m_collisionPoint1 :=
                ops.vadd s1.position
                  (ops.vscale (ops.normalized (ops.vsub s2.position s1.position)) s1.radius)
              m_collisionPoint2 :=
                ops.vsub s2.position
                  (ops.vscale (ops.normalized (ops.vsub s2.position s1.position)) s2.radius)
              m_interpenetrationDepth :=
                ops.sub (ops.add s1.radius s2.radius)
                  (ops.norm (ops.vsub s2.position s1.position)) })
        else Except.error Fault.assertionFailed
      else Except.ok (false, c) := by
  unfold detectSphereSphereWith
  simp only [h1, h2]

/-- The sphere-box routine on a sphere and a box with the operations of `ops`, the
two pointer casts resolved. -/
theorem detectSphereBoxWith_sphere_box {F : Type} (ops : FloatOps F) (EPSILON : F)
    (c : Collision F) (mySphere : Sphere F) (myBox : Box F)
    (h1 : c.m_object1 = Object.sphere mySphere) (h2 : c.m_object2 = Object.box myBox) :
    detectSphereBoxWith ops EPSILON c =
      if ops.lt (ops.norm (sphereBoxNormalWith ops mySphere myBox)) mySphere.radius then
        if ops.le (ops.sub mySphere.radius EPSILON) (distSpherePlaneWith ops c mySphere myBox) then
          if pointsBelowWith ops EPSILON myBox (sphereBoxContactWith ops c mySphere myBox) = 8 ∨
              pointsAboveWith ops EPSILON myBox (sphereBoxContactWith ops c mySphere myBox) = 8 then
            Except.ok (true, sphereBoxContactWith ops c mySphere myBox)
          else Except.error Fault.assertionFailed
        else Except.error Fault.assertionFailed
      else Except.ok (false, c) := by
  obtain ⟨t, o1, o2, k, n, p1, p2, d⟩ := c
  simp only at h1 h2
  subst h1 h2
  rfl

/-- Nearly concentric spheres in binary32.  The unit spheres of centres (0,0,0) and
`(15845633 * 2^-97, 0, 0)` have `0 < L < r1 + r2`, as computed and in exact
arithmetic, yet the routine stops at the assertion of line 52 for every `EPSILON`
up to `81239 * 2^-23`, about 0.00968: the squared length is subnormal and rounds
to `7 * 2^-149`, the length to `15693649 * 2^-97`, and the normalized vector has
the length `8469847 * 2^-23`, about 1.00968. -/
theorem detectSphereSphere_near_concentric_aborts (EPSILON : Int)
    (hE : EPSILON ≤ ofScaled 81239 126) :
    Representable (ofScaled 15845633 52) ∧
    0 < exactSquaredDistance ⟨0, 0, 0⟩ ⟨ofScaled 15845633 52, 0, 0⟩ ∧
    exactSquaredDistance ⟨0, 0, 0⟩ ⟨ofScaled 15845633 52, 0, 0⟩ <
      (ofScaled 1 149 + ofScaled 1 149) ^ 2 ∧
    binary32.squaredNorm ⟨ofScaled 15845633 52, 0, 0⟩ = 7 ∧
    binary32.norm ⟨ofScaled 15845633 52, 0, 0⟩ = ofScaled 15693649 52 ∧
    binary32.norm (binary32.normalized ⟨ofScaled 15845633 52, 0, 0⟩) = ofScaled 8469847 126 ∧
    detectSphereSphereWith binary32 EPSILON
        (binary32SpherePair (binary32UnitSphere ⟨0, 0, 0⟩)
          (binary32UnitSphere ⟨ofScaled 15845633 52, 0, 0⟩)) =
      Except.error Fault.assertionFailed := by
  refine ⟨rfl, by decide, by decide, rfl, rfl, rfl, ?_⟩
  have hlt : binary32.lt
      (binary32.norm (binary32.vsub (binary32UnitSphere ⟨ofScaled 15845633 52, 0, 0⟩).position
        (binary32UnitSphere ⟨0, 0, 0⟩).position))
      (binary32.add (binary32UnitSphere ⟨0, 0, 0⟩).radius
        (binary32UnitSphere ⟨ofScaled 15845633 52, 0, 0⟩).radius) = true := rfl
  have hval : binary32.abs (binary32.sub
      (binary32.norm (binary32.normalized
        (binary32.vsub (binary32UnitSphere ⟨ofScaled 15845633 52, 0, 0⟩).position
          (binary32UnitSphere ⟨0, 0, 0⟩).position)))
      binary32.one) = ofScaled 81239 126 := rfl
  have hunit : binary32.lt (ofScaled 81239 126) EPSILON = false :=
    decide_eq_false (not_lt.mpr hE)
  rw [detectSphereSphereWith_spheres binary32 EPSILON _ (binary32UnitSphere ⟨0, 0, 0⟩)
    (binary32UnitSphere ⟨ofScaled 15845633 52, 0, 0⟩) rfl rfl, hlt, hval, hunit]
  rfl

/-- The run on nearly concentric spheres at `EPSILON = 0.001f`. -/
theorem detectSphereSphere_near_concentric_aborts_milli :
    detectSphereSphereWith binary32 binary32Epsilon
        (binary32SpherePair (binary32UnitSphere ⟨0, 0, 0⟩)
          (binary32UnitSphere ⟨ofScaled 15845633 52, 0, 0⟩)) =
      Except.error Fault.assertionFailed :=
  (detectSphereSphere_near_concentric_aborts binary32Epsilon (by decide)).2.2.2.2.2.2

/-- C10, amended to the arithmetic of the code: for two spheres on which the
comparison of line 50 fails as the code computes it (the computed length of
`c2 - c1` is not less than the computed sum of the radii), whatever its rounding,
and for every prior content of the record, the routine returns false and the
record, its four output fields included, is exactly what it was before the
call. -/
theorem detectSphereSphereWith_miss {F : Type} (ops : FloatOps F) (EPSILON : F)
    (c : Collision F) (s1 s2 : Sphere F) (h1 : c.m_object1 = Object.sphere s1)
    (h2 : c.m_object2 = Object.sphere s2)
    (hge : ops.lt (ops.norm (ops.vsub s2.position s1.position))
      (ops.add s1.radius s2.radius) = false) :
    detectSphereSphereWith ops EPSILON c = Except.ok (false, c) := by
  rw [detectSphereSphereWith_spheres ops EPSILON c s1 s2 h1 h2, hge]
  rfl

/-- Witness of C10: in binary32, unit spheres whose centres are exactly 2 apart
(the boundary `L = r1 + r2`) report no collision and leave a record with non-zero
prior outputs as it was. -/
theorem detectSphereSphereWith_miss_witness :
    detectSphereSphereWith binary32 binary32Epsilon
        { binary32SpherePair (binary32UnitSphere ⟨0, 0, 0⟩)
            (binary32UnitSphere ⟨ofScaled 2 149, 0, 0⟩) with
          m_collisionNormal := ⟨ofScaled 1 149, 0, 0⟩
          m_interpenetrationDepth := ofScaled 7 149 } =
      Except.ok (false,
        { binary32SpherePair (binary32UnitSphere ⟨0, 0, 0⟩)
            (binary32UnitSphere ⟨ofScaled 2 149, 0, 0⟩) with
          m_collisionNormal := ⟨ofScaled 1 149, 0, 0⟩
          m_interpenetrationDepth := ofScaled 7 149 }) :=
  detectSphereSphereWith_miss binary32 binary32Epsilon _
    (binary32UnitSphere ⟨0, 0, 0⟩) (binary32UnitSphere ⟨ofScaled 2 149, 0, 0⟩) rfl rfl rfl

/-- Counterexample to C10 as stated: the binary32 unit spheres of centres (0,0,0)
and `(6290017 * 2^-22, 4261849 * 2^-22, 14221715 * 2^-24)` have
`|c2 - c1| >= r1 + r2` in exact arithmetic (the squared distance exceeds 4), yet
the computed length is `2 - 2^-23`, the routine returns true and writes all four
output fields.  The squared length is the same whichever way round its three
terms are added. -/
theorem detectSphereSphere_rounded_distance_hit :
    RepresentableVector ⟨ofScaled 6290017 127, ofScaled 4261849 127, ofScaled 14221715 125⟩ ∧
    (ofScaled 1 149 + ofScaled 1 149) ^ 2 ≤
      exactSquaredDistance ⟨0, 0, 0⟩
        ⟨ofScaled 6290017 127, ofScaled 4261849 127, ofScaled 14221715 125⟩ ∧
    binary32.add
        (binary32.add (binary32.mul (ofScaled 6290017 127) (ofScaled 6290017 127))
          (binary32.mul (ofScaled 4261849 127) (ofScaled 4261849 127)))
        (binary32.mul (ofScaled 14221715 125) (ofScaled 14221715 125)) =
      binary32.squaredNorm ⟨ofScaled 6290017 127, ofScaled 4261849 127, ofScaled 14221715 125⟩ ∧
    binary32.norm ⟨ofScaled 6290017 127, ofScaled 4261849 127, ofScaled 14221715 125⟩ =
      ofScaled 16777215 126 ∧
    detectSphereSphereWith binary32 binary32Epsilon
        (binary32SpherePair (binary32UnitSphere ⟨0, 0, 0⟩)
          (binary32UnitSphere
            ⟨ofScaled 6290017 127, ofScaled 4261849 127, ofScaled 14221715 125⟩)) =
      Except.ok (true,
        { binary32SpherePair (binary32UnitSphere ⟨0, 0, 0⟩)
            (binary32UnitSphere
              ⟨ofScaled 6290017 127, ofScaled 4261849 127, ofScaled 14221715 125⟩) with
          m_collisionNormal := ⟨ofScaled 12580035 125, ofScaled 8523699 125, ofScaled 3555429 126⟩
          m_collisionPoint1 := ⟨ofScaled 12580035 125, ofScaled 8523699 125, ofScaled 3555429 126⟩
          m_collisionPoint2 := ⟨ofScaled 12580033 125, ofScaled 8523697 125, ofScaled 7110857 125⟩
          m_interpenetrationDepth := ofScaled 1 126 }) :=
  ⟨⟨rfl, rfl, rfl⟩, by decide, rfl, rfl, rfl⟩

/-- C12 on the failing input: for the sphere `farSphere` and the cube
`farTurnedCube`, binary32 data whose model matrix has exactly orthogonal columns,
the binary32 run detects the collision (line 73), passes the assertion of line 83
and counts `pointsBelow = 4` and `pointsAbove = 6`, so the assertion of line 104
fails. -/
theorem detectSphereBox_corner_assertion_fails :
    RepresentableVector farSphere.position ∧
    RepresentableVector farTurnedCube.modelMatrix.linear.row0 ∧
    RepresentableVector farTurnedCube.modelMatrix.linear.row1 ∧
    exactDot farTurnedCube.modelMatrix.linear.col0 farTurnedCube.modelMatrix.linear.col1 = 0 ∧
    exactDot farTurnedCube.modelMatrix.linear.col0 farTurnedCube.modelMatrix.linear.col2 = 0 ∧
    exactDot farTurnedCube.modelMatrix.linear.col1 farTurnedCube.modelMatrix.linear.col2 = 0 ∧
    binary32.lt (binary32.norm (sphereBoxNormalWith binary32 farSphere farTurnedCube))
      farSphere.radius = true ∧
    binary32.le (binary32.sub farSphere.radius binary32Epsilon)
      (distSpherePlaneWith binary32 (binary32SphereBoxPair farSphere farTurnedCube)
        farSphere farTurnedCube) = true ∧
    pointsBelowWith binary32 binary32Epsilon farTurnedCube
      (sphereBoxContactWith binary32 (binary32SphereBoxPair farSphere farTurnedCube)
        farSphere farTurnedCube) = 4 ∧
    pointsAboveWith binary32 binary32Epsilon farTurnedCube
      (sphereBoxContactWith binary32 (binary32SphereBoxPair farSphere farTurnedCube)
        farSphere farTurnedCube) = 6 ∧
    detectSphereBoxWith binary32 binary32Epsilon (binary32SphereBoxPair farSphere farTurnedCube) =
      Except.error Fault.assertionFailed :=
  ⟨⟨rfl, rfl, rfl⟩, ⟨rfl, rfl, rfl⟩, ⟨rfl, rfl, rfl⟩, rfl, rfl, rfl, rfl, rfl, rfl, rfl, rfl⟩

/-- The values of the binary32 run on `farSphere` and `farTurnedCube`: the sphere
centre in the box frame is computed as `(0.25, -1.125, 0)`, the surface point is
`(0.25, -1, 0)`, the normal before normalization has the length `0.125` and
becomes `(-0.8f, 0.6f, 0)`, the contact points are `(1000000.25, 1000000.125, 0)`
and `(1000000.9375, 999999.625, 0)`, the depth is `0.875`, `distSpherePlane` is about
`1.025`, and the eight corner distances are about
`0, 0, 1.9625, 1.9625, -0.0125, -0.0125, 1.95, 1.95`: the world-space corners are
rounded to multiples of `0.0625`. -/
theorem detectSphereBox_far_run_values :
    binary32.apply farTurnedCube.invModelMatrix farSphere.position =
      ⟨ofScaled 1 147, -ofScaled 9 146, 0⟩ ∧
    (AABox.mk farTurnedCube.halfSize).closestPointOnSurfaceWith binary32
        ⟨ofScaled 1 147, -ofScaled 9 146, 0⟩ =
      ⟨ofScaled 1 147, -ofScaled 1 149, 0⟩ ∧
    sphereBoxNormalWith binary32 farSphere farTurnedCube =
      ⟨-ofScaled 13421773 122, ofScaled 5033165 123, 0⟩ ∧
    binary32.norm (sphereBoxNormalWith binary32 farSphere farTurnedCube) = ofScaled 1 146 ∧
    (sphereBoxContactWith binary32 (binary32SphereBoxPair farSphere farTurnedCube)
        farSphere farTurnedCube).m_collisionNormal =
      ⟨-ofScaled 13421773 125, ofScaled 5033165 126, 0⟩ ∧
    (sphereBoxContactWith binary32 (binary32SphereBoxPair farSphere farTurnedCube)
        farSphere farTurnedCube).m_collisionPoint1 =
      ⟨ofScaled 4000001 147, ofScaled 8000001 146, 0⟩ ∧
    (sphereBoxContactWith binary32 (binary32SphereBoxPair farSphere farTurnedCube)
        farSphere farTurnedCube).m_collisionPoint2 =
      ⟨ofScaled 16000015 145, ofScaled 7999997 146, 0⟩ ∧
    (sphereBoxContactWith binary32 (binary32SphereBoxPair farSphere farTurnedCube)
        farSphere farTurnedCube).m_interpenetrationDepth = ofScaled 7 146 ∧
    distSpherePlaneWith binary32 (binary32SphereBoxPair farSphere farTurnedCube)
        farSphere farTurnedCube = ofScaled 2149581 128 ∧
    (cornerSignsWith binary32).map
        (cornerDistWith binary32 farTurnedCube
          (sphereBoxContactWith binary32 (binary32SphereBoxPair farSphere farTurnedCube)
            farSphere farTurnedCube)) =
      [0, 0, ofScaled 16462643 126, ofScaled 16462643 126,
        -ofScaled 209715 125, -ofScaled 209715 125, ofScaled 8178893 127, ofScaled 8178893 127] :=
  ⟨rfl, rfl, rfl, rfl, rfl, rfl, rfl, rfl, rfl, rfl⟩

/-- The corner counts of the same run do not depend on the tolerance chosen: with
`EPSILON` the binary32 number nearest to `0.000001` or to `0.01` the assertion of
line 83 passes as well and the counts are again 4 and 6. -/
theorem detectSphereBox_corner_counts_tolerances :
    (binary32.le (binary32.sub farSphere.radius (Binary32.round (2 ^ 149) 1000000))
        (distSpherePlaneWith binary32 (binary32SphereBoxPair farSphere farTurnedCube)
          farSphere farTurnedCube) = true ∧
      pointsBelowWith binary32 (Binary32.round (2 ^ 149) 1000000) farTurnedCube
        (sphereBoxContactWith binary32 (binary32SphereBoxPair farSphere farTurnedCube)
          farSphere farTurnedCube) = 4 ∧
      pointsAboveWith binary32 (Binary32.round (2 ^ 149) 1000000) farTurnedCube
        (sphereBoxContactWith binary32 (binary32SphereBoxPair farSphere farTurnedCube)
          farSphere farTurnedCube) = 6) ∧
    (binary32.le (binary32.sub farSphere.radius (Binary32.round (2 ^ 149) 100))
        (distSpherePlaneWith binary32 (binary32SphereBoxPair farSphere farTurnedCube)
          farSphere farTurnedCube) = true ∧
      pointsBelowWith binary32 (Binary32.round (2 ^ 149) 100) farTurnedCube
        (sphereBoxContactWith binary32 (binary32SphereBoxPair farSphere farTurnedCube)
          farSphere farTurnedCube) = 4 ∧
      pointsAboveWith binary32 (Binary32.round (2 ^ 149) 100) farTurnedCube
        (sphereBoxContactWith binary32 (binary32SphereBoxPair farSphere farTurnedCube)
          farSphere farTurnedCube) = 6) :=
  ⟨⟨rfl, rfl, rfl⟩, ⟨rfl, rfl, rfl⟩⟩

end gp.engine.Collision
